import Mathlib

/-!
# OOP teaching examples: a verification development

Shallow embedding of the example programs of the repository.

Conventions of the embedding.

* A C++ `double` is read in two ways. In the first embedding it is an exact
  rational (`ℚ`): arithmetic and comparisons are the ones of the ordered
  field, without rounding, infinities or NaN. Where the behaviour of a
  program depends on the difference, the namespace `Binary64` embeds it a
  second time over IEEE 754 doubles (NaN, infinities, rounding to nearest).
* Console output is a list of text pieces, one per output statement
  (one `std::cout << ... ;` chain), in program order.
* A member function that mutates the object returns the new object next to
  its result; a `const` member function is a function of the object.
-/

namespace OopInCpp

/-! ## Number formatting of the standard library -/

/-- Round the non-negative fraction `n / d` to the nearest natural number,
ties to even (the default rounding of the C library conversions). -/
def roundHalfEven (n d : Nat) : Nat :=
  let q := n / d
  let r := n % d
  if 2 * r > d then q + 1
  else if 2 * r = d then (if q % 2 = 0 then q else q + 1)
  else q

/-- Left-pad the decimal digits of `n` with zeros up to `width` characters. -/
def padDigits (width n : Nat) : String :=
  let s := toString n
  String.mk (List.replicate (width - s.length) '0') ++ s

/-- Fixed notation with `prec` digits after the decimal point: what
`std::fixed << std::setprecision(prec)` (or `%.<prec>f`) prints for `x`. -/
def fixedPoint (prec : Nat) (x : ℚ) : String :=
  let scaled := roundHalfEven (x.num.natAbs * 10 ^ prec) x.den
  let sign := if x < 0 then "-" else ""
  let whole := toString (scaled / 10 ^ prec)
  if prec = 0 then sign ++ whole
  else sign ++ whole ++ "." ++ padDigits prec (scaled % 10 ^ prec)

/-- The text of `std::fixed << std::setprecision(2) << x`. -/
def fixed2 (x : ℚ) : String := fixedPoint 2 x

/-- The text of `std::to_string(x)` for a `double` (format `%f`, six decimals). -/
def to_string (x : ℚ) : String := fixedPoint 6 x

/-! ## 02-encapsulation/01_bank_account.cpp -/

/-- The private data members of `class BankAccount`. -/
structure BankAccount where
  accountNumber : String
  accountHolder : String
  balance : ℚ
  transactionHistory : List String
  deriving DecidableEq

namespace BankAccount

/-- Private helper `recordTransaction`: `transactionHistory.push_back(description)`. -/
def recordTransaction (self : BankAccount) (description : String) : BankAccount :=
  { self with transactionHistory := self.transactionHistory ++ [description] }

/-- The constructor `BankAccount(accountNumber, accountHolder, initialBalance)`. -/
def new (accountNumber accountHolder : String) (initialBalance : ℚ) : BankAccount :=
  recordTransaction
    { accountNumber := accountNumber, accountHolder := accountHolder,
      balance := initialBalance, transactionHistory := [] }
    ("Account opened with initial balance: $" ++ to_string initialBalance)

/-- Getter `getBalance() const`. -/
def getBalance (self : BankAccount) : ℚ := self.balance

/-- The outcome of a call of `deposit` or `withdraw`: the returned `bool`,
the account after the call and the text written to `std::cout`. -/
structure Outcome where
  ok : Bool
  account : BankAccount
  out : List String

/-- Member function `bool deposit(double amount)`. -/
def deposit (self : BankAccount) (amount : ℚ) : Outcome :=
  if amount ≤ 0 then
    { ok := false, account := self, out := ["Error: Deposit amount must be positive\n"] }
  else
    let s1 := { self with balance := self.balance + amount }
    let s2 := s1.recordTransaction ("Deposited: $" ++ to_string amount)
    { ok := true, account := s2,
      out := ["Deposit successful. New balance: $" ++ fixed2 s2.balance ++ "\n"] }

/-- Member function `bool withdraw(double amount)`. -/
def withdraw (self : BankAccount) (amount : ℚ) : Outcome :=
  if amount ≤ 0 then
    { ok := false, account := self, out := ["Error: Withdrawal amount must be positive\n"] }
  else if amount > self.balance then
    { ok := false, account := self,
      out := ["Error: Insufficient funds. Available: $" ++ fixed2 self.balance ++ "\n"] }
  else
    let s1 := { self with balance := self.balance - amount }
    let s2 := s1.recordTransaction ("Withdrew: $" ++ to_string amount)
    { ok := true, account := s2,
      out := ["Withdrawal successful. New balance: $" ++ fixed2 s2.balance ++ "\n"] }

/-- One call of the public mutating interface of `BankAccount`. -/
inductive Call where
  | deposit (amount : ℚ)
  | withdraw (amount : ℚ)
  deriving DecidableEq

/-- Perform one call on the account. -/
def step (self : BankAccount) : Call → Outcome
  | .deposit amount => self.deposit amount
  | .withdraw amount => self.withdraw amount

/-- The account after a sequence of calls, performed from left to right. -/
def final (self : BankAccount) : List Call → BankAccount
  | [] => self
  | c :: cs => final (self.step c).account cs

/-- Every call of a sequence together with its outcome, in program order. -/
def trace (self : BankAccount) : List Call → List (Call × Outcome)
  | [] => []
  | c :: cs => (c, self.step c) :: trace (self.step c).account cs

/-- Sum of the amounts of the deposits of a trace that returned `true`. -/
def depositedTotal : List (Call × Outcome) → ℚ
  | [] => 0
  | (.deposit amount, o) :: rest =>
      (if o.ok = true then amount else 0) + depositedTotal rest
  | (.withdraw _, _) :: rest => depositedTotal rest

/-- Sum of the amounts of the withdrawals of a trace that returned `true`. -/
def withdrawnTotal : List (Call × Outcome) → ℚ
  | [] => 0
  | (.withdraw amount, o) :: rest =>
      (if o.ok = true then amount else 0) + withdrawnTotal rest
  | (.deposit _, _) :: rest => withdrawnTotal rest

/-- The account opened by `main`: `BankAccount account("ACC-12345", "Alice Smith", 1000.00)`. -/
def mainAccount : BankAccount := BankAccount.new "ACC-12345" "Alice Smith" 1000

/-- The four transactions of `main`, in program order. -/
def mainCalls : List Call :=
  [.deposit 500, .withdraw 200, .withdraw 2000, .deposit 300]

end BankAccount

/-! ## 04-polymorphism/02_payment_processors.cpp -/

/-- The abstract class `PaymentProcessor`: its three pure virtual member
functions. An object of a derived class is the record of its overriders.
`process` gives the returned `bool` and the text written to `std::cout`,
`refund` the text written. -/
structure PaymentProcessor where
  process : ℚ → Bool × List String
  refund : ℚ → List String
  getProcessorName : String

/-- The overriders of `class CreditCardProcessor`. -/
def CreditCardProcessor : PaymentProcessor where
  process amount :=
    (true,
      ["Processing $" ++ fixed2 amount ++ " via credit card\n",
       "  Connecting to payment gateway...\n",
       "  Verifying card details...\n",
       "  Transaction approved!\n"])
  refund amount := ["Refunding $" ++ fixed2 amount ++ " to credit card\n"]
  getProcessorName := "Credit Card Processor"

/-- The overriders of `class PayPalProcessor`. -/
def PayPalProcessor : PaymentProcessor where
  process amount :=
    (true,
      ["Processing $" ++ fixed2 amount ++ " via PayPal\n",
       "  Authenticating PayPal account...\n",
       "  Transfer initiated...\n",
       "  Transaction completed!\n"])
  refund amount := ["Refunding $" ++ fixed2 amount ++ " to PayPal account\n"]
  getProcessorName := "PayPal Processor"

/-- The overriders of `class ApplePayProcessor`. -/
def ApplePayProcessor : PaymentProcessor where
  process amount :=
    (true,
      ["Processing $" ++ fixed2 amount ++ " via Apple Pay\n",
       "  Reading device biometric...\n",
       "  Sending secure payment token...\n",
       "  Transaction authorized!\n"])
  refund amount := ["Refunding $" ++ fixed2 amount ++ " via Apple Pay\n"]
  getProcessorName := "Apple Pay Processor"

/-- The three classes derived from `PaymentProcessor`. -/
inductive Variant where
  | creditCard
  | payPal
  | applePay
  deriving DecidableEq, Repr

/-- An object of the given derived class. -/
def Variant.processor : Variant → PaymentProcessor
  | .creditCard => CreditCardProcessor
  | .payPal => PayPalProcessor
  | .applePay => ApplePayProcessor

/-- The member functions declared by `PaymentProcessor`. -/
inductive Operation where
  | process
  | refund
  | getProcessorName
  deriving DecidableEq, Repr

/-- What a run of the driver does, in program order: it writes a piece of
text to `std::cout`, or it calls a virtual member function of the processor. -/
inductive Event where
  | print (text : String)
  | call (op : Operation)
  deriving DecidableEq

namespace PaymentProcessor

/-- A virtual call `processor.process(amount)`: the call is logged, followed
by what the overrider prints. -/
def invokeProcess (self : PaymentProcessor) (amount : ℚ) : Bool × List Event :=
  ((self.process amount).1, Event.call .process :: (self.process amount).2.map Event.print)

/-- A virtual call `processor.refund(amount)`. -/
def invokeRefund (self : PaymentProcessor) (amount : ℚ) : List Event :=
  Event.call .refund :: (self.refund amount).map Event.print

/-- A virtual call `processor.getProcessorName()`. -/
def invokeGetProcessorName (self : PaymentProcessor) : String × List Event :=
  (self.getProcessorName, [Event.call .getProcessorName])

end PaymentProcessor

/-- The function `void checkoutOrder(PaymentProcessor& processor, double cartTotal)`. -/
def checkoutOrder (processor : PaymentProcessor) (cartTotal : ℚ) : List Event :=
  let name := processor.invokeGetProcessorName
  let paid := processor.invokeProcess cartTotal
  [Event.print "\n=== Checkout Order ===\n"]
    ++ name.2 ++ [Event.print ("Using: " ++ name.1 ++ "\n")]
    ++ [Event.print ("Total: $" ++ fixed2 cartTotal ++ "\n")]
    ++ [Event.print "\nProcessing payment...\n"]
    ++ paid.2
    ++ [if paid.1 then Event.print "✓ Order completed successfully!\n"
        else Event.print "✗ Payment failed\n"]

/-- The texts written by a run. -/
def printed : List Event → List String
  | [] => []
  | .print text :: rest => text :: printed rest
  | .call _ :: rest => printed rest

/-- The virtual member functions called by a run. -/
def calls : List Event → List Operation
  | [] => []
  | .print _ :: rest => calls rest
  | .call op :: rest => op :: calls rest

/-- The local `double orderTotal = 99.99` of `main`. -/
def orderTotal : ℚ := 9999 / 100

/-- The `switch (choice)` of `main`: the processor created for a choice. -/
def selectProcessor (choice : Int) : PaymentProcessor :=
  match choice with
  | 1 => CreditCardProcessor
  | 2 => PayPalProcessor
  | 3 => ApplePayProcessor
  | _ => CreditCardProcessor

/-- The function `main` of the payment example (`int choice = 2`). -/
def paymentMain : List Event :=
  checkoutOrder CreditCardProcessor orderTotal
    ++ checkoutOrder PayPalProcessor orderTotal
    ++ checkoutOrder ApplePayProcessor orderTotal
    ++ [Event.print "\n\n=== Dynamic Processor Selection ===\n"]
    ++ checkoutOrder (selectProcessor 2) orderTotal

/-- A text that reports a failure: in these programs such a text starts with
`Error` or is the `Payment failed` line of the checkout. -/
def isErrorMessage (m : String) : Bool :=
  "Error".data.isPrefixOf m.data || "✗ Payment failed".data.isPrefixOf m.data

/-! ## 01-abstraction/01_basic_class.cpp -/

/-- The data member of `class Calculator` (`int lastResult = 0`). -/
structure Calculator where
  lastResult : Int := 0
  deriving DecidableEq

/-- Member function `double divide(int a, int b) const`: the returned value
and the text written to `std::cerr`. -/
def Calculator.divide (_self : Calculator) (a b : Int) : ℚ × List String :=
  if b = 0 then
    (0, ["Error: Division by zero\n"])
  else
    ((a : ℚ) / (b : ℚ), [])

/-- The value of an `int` expression: the mathematical result reduced to the
32-bit two's complement range. -/
def wrapInt32 (x : Int) : Int := (x + 2 ^ 31) % 2 ^ 32 - 2 ^ 31

namespace Calculator

/-- The object made by the defaulted constructor `Calculator() = default`. -/
def new : Calculator := { lastResult := 0 }

/-- Private member function `void storeResult(int result)`. -/
def storeResult (_self : Calculator) (result : Int) : Calculator := { lastResult := result }

/-- Member function `int add(int a, int b) const`. -/
def add (_self : Calculator) (a b : Int) : Int := wrapInt32 (a + b)

/-- Member function `int subtract(int a, int b) const`. -/
def subtract (_self : Calculator) (a b : Int) : Int := wrapInt32 (a - b)

/-- Member function `int multiply(int a, int b) const`. -/
def multiply (_self : Calculator) (a b : Int) : Int := wrapInt32 (a * b)

/-- Member function `int getLastResult() const`. -/
def getLastResult (self : Calculator) : Int := self.lastResult

/-- One call of the public interface of `Calculator`. -/
inductive Call where
  | add (a b : Int)
  | subtract (a b : Int)
  | multiply (a b : Int)
  | divide (a b : Int)
  | getLastResult
  deriving DecidableEq

/-- The value returned by a call: an `int` or a `double`. -/
inductive Value where
  | int (v : Int)
  | double (v : ℚ)
  deriving DecidableEq

/-- Perform one public call: the returned value and the object after the
call. Every public member function is `const` and none of them calls
`storeResult`, so each call hands the object on as it received it. -/
def step (self : Calculator) : Call → Value × Calculator
  | .add a b => (.int (self.add a b), self)
  | .subtract a b => (.int (self.subtract a b), self)
  | .multiply a b => (.int (self.multiply a b), self)
  | .divide a b => (.double (self.divide a b).1, self)
  | .getLastResult => (.int self.getLastResult, self)

/-- The object after a sequence of public calls. -/
def final (self : Calculator) : List Call → Calculator
  | [] => self
  | c :: cs => final (self.step c).2 cs

/-- The values returned by a sequence of public calls, in program order. -/
def returned (self : Calculator) : List Call → List (Call × Value)
  | [] => []
  | c :: cs => (c, (self.step c).1) :: returned (self.step c).2 cs

end Calculator

/-! ## 01-abstraction/03_abstract_classes.cpp -/

/-- The data members of `class Circle` (with the `name` of its base `Shape`). -/
structure Circle where
  name : String
  radius : ℚ
  deriving DecidableEq

/-- The constant `static constexpr double PI = 3.14159`. -/
def Circle.PI : ℚ := 314159 / 100000

/-- Overrider `Circle::getArea() const`. -/
def Circle.getArea (self : Circle) : ℚ := Circle.PI * self.radius * self.radius

/-- Overrider `Circle::getPerimeter() const`. -/
def Circle.getPerimeter (self : Circle) : ℚ := 2 * Circle.PI * self.radius

/-- The data members of `class Rectangle` (with the `name` of its base `Shape`). -/
structure Rectangle where
  name : String
  width : ℚ
  height : ℚ
  deriving DecidableEq

/-- Overrider `Rectangle::getArea() const`. -/
def Rectangle.getArea (self : Rectangle) : ℚ := self.width * self.height

/-- Overrider `Rectangle::getPerimeter() const`. -/
def Rectangle.getPerimeter (self : Rectangle) : ℚ := 2 * (self.width + self.height)

/-- The data members of `class Triangle` (with the `name` of its base `Shape`). -/
structure Triangle where
  name : String
  a : ℚ
  b : ℚ
  c : ℚ
  deriving DecidableEq

/-- The argument that `Triangle::getArea` passes to `std::sqrt` (Heron's formula). -/
def Triangle.radicand (self : Triangle) : ℚ :=
  let s := (self.a + self.b + self.c) / 2
  s * (s - self.a) * (s - self.b) * (s - self.c)

/-- Overrider `Triangle::getArea() const`. The library function `std::sqrt`
is a parameter of the embedding. -/
def Triangle.getArea (sqrt : ℚ → ℚ) (self : Triangle) : ℚ := sqrt self.radicand

/-- Overrider `Triangle::getPerimeter() const`. -/
def Triangle.getPerimeter (self : Triangle) : ℚ := self.a + self.b + self.c

/-- An object handled through a `Shape` pointer: one of the three concrete classes. -/
inductive Shape where
  | circle (self : Circle)
  | rectangle (self : Rectangle)
  | triangle (self : Triangle)
  deriving DecidableEq

namespace Shape

/-- Virtual call `shape->getArea()`. -/
def getArea (sqrt : ℚ → ℚ) : Shape → ℚ
  | .circle self => self.getArea
  | .rectangle self => self.getArea
  | .triangle self => self.getArea sqrt

/-- Virtual call `shape->getPerimeter()`. -/
def getPerimeter : Shape → ℚ
  | .circle self => self.getPerimeter
  | .rectangle self => self.getPerimeter
  | .triangle self => self.getPerimeter

/-- The geometric attributes an object was constructed with. -/
def attributes : Shape → List ℚ
  | .circle self => [self.radius]
  | .rectangle self => [self.width, self.height]
  | .triangle self => [self.a, self.b, self.c]

/-- The class of an object. -/
def sameClass : Shape → Shape → Bool
  | .circle _, .circle _ => true
  | .rectangle _, .rectangle _ => true
  | .triangle _, .triangle _ => true
  | _, _ => false

/-- The two `const` geometric operations of the `Shape` interface. -/
inductive Query where
  | area
  | perimeter
  deriving DecidableEq

/-- A call of a `const` geometric operation on an object: the returned value
and the object after the call. -/
def ask (sqrt : ℚ → ℚ) (self : Shape) : Query → ℚ × Shape
  | .area => (self.getArea sqrt, self)
  | .perimeter => (self.getPerimeter, self)

end Shape

/-- The constructor `Triangle(name, a, b, c)`: it stores its arguments
without any check. -/
def Triangle.new (name : String) (a b c : ℚ) : Triangle :=
  { name := name, a := a, b := b, c := c }

/-! ## 01-abstraction/02_attributes_and_methods.cpp -/

/-- The private data members of `class Car`. -/
structure Car where
  brand : String
  model : String
  year : Int
  isRunning : Bool
  speed : Int
  deriving DecidableEq

namespace Car

/-- The constructor `Car(brand, model, year)`; `isRunning` and `speed` take
their default member initialisers `false` and `0`. -/
def new (brand model : String) (year : Int) : Car :=
  { brand := brand, model := model, year := year, isRunning := false, speed := 0 }

/-- Member function `void startEngine()`: the object after the call and the text written. -/
def startEngine (self : Car) : Car × List String :=
  if !self.isRunning then
    ({ self with isRunning := true }, [self.brand ++ " " ++ self.model ++ " engine started\n"])
  else
    (self, [])

/-- Member function `void stopEngine()`. -/
def stopEngine (self : Car) : Car × List String :=
  if self.isRunning then
    ({ self with isRunning := false, speed := 0 },
      [self.brand ++ " " ++ self.model ++ " engine stopped\n"])
  else
    (self, [])

/-- Member function `void accelerate()`. -/
def accelerate (self : Car) : Car × List String :=
  if self.isRunning && decide (self.speed < 200) then
    ({ self with speed := self.speed + 10 },
      ["Speed: " ++ toString (self.speed + 10) ++ " km/h\n"])
  else
    (self, [])

/-- Member function `void decelerate()`. -/
def decelerate (self : Car) : Car × List String :=
  if self.speed > 0 then
    ({ self with speed := self.speed - 10 },
      ["Speed: " ++ toString (self.speed - 10) ++ " km/h\n"])
  else
    (self, [])

/-- One call of the state-changing interface of `Car`. -/
inductive Call where
  | startEngine
  | stopEngine
  | accelerate
  | decelerate
  deriving DecidableEq

/-- Perform one call on the car. -/
def step (self : Car) : Call → Car × List String
  | .startEngine => self.startEngine
  | .stopEngine => self.stopEngine
  | .accelerate => self.accelerate
  | .decelerate => self.decelerate

/-- The car after each call of a sequence, in program order. -/
def states (self : Car) : List Call → List Car
  | [] => []
  | c :: cs => (self.step c).1 :: states (self.step c).1 cs

/-- The car of `main`: `Car myCar("Toyota", "Corolla", 2023)`. -/
def myCar : Car := Car.new "Toyota" "Corolla" 2023

/-- The calls of the driving part of `main`, in program order. -/
def mainCalls : List Call :=
  [.startEngine, .accelerate, .accelerate, .decelerate, .stopEngine]

end Car

/-! ## 03-inheritance/02_virtual_functions.cpp -/

namespace VirtualFunctions

/-- The three classes of the example. -/
inductive ClassName where
  | BaseClass
  | DerivedClass
  | FurtherDerived
  deriving DecidableEq, Repr

/-- The member functions declared in `BaseClass`. -/
inductive Method where
  | method1
  | method2
  | nonVirtualMethod
  deriving DecidableEq, Repr

/-- The class itself followed by its base classes, nearest first. -/
def lineage : ClassName → List ClassName
  | .BaseClass => [.BaseClass]
  | .DerivedClass => [.DerivedClass, .BaseClass]
  | .FurtherDerived => [.FurtherDerived, .DerivedClass, .BaseClass]

/-- The text printed by the definition a class itself gives of a member
function; `none` when the class gives none (`method2` is pure virtual in
`BaseClass`, `FurtherDerived` does not declare `nonVirtualMethod`). -/
def body : ClassName → Method → Option String
  | .BaseClass, .method1 => some "BaseClass::method1\n"
  | .BaseClass, .method2 => none
  | .BaseClass, .nonVirtualMethod => some "BaseClass::nonVirtualMethod (not virtual)\n"
  | .DerivedClass, .method1 => some "DerivedClass::method1 (overridden)\n"
  | .DerivedClass, .method2 => some "DerivedClass::method2 (implemented)\n"
  | .DerivedClass, .nonVirtualMethod =>
      some "DerivedClass::nonVirtualMethod (shadows, not overrides)\n"
  | .FurtherDerived, .method1 => some "FurtherDerived::method1\n"
  | .FurtherDerived, .method2 => some "FurtherDerived::method2\n"
  | .FurtherDerived, .nonVirtualMethod => none

/-- Whether the member function is declared `virtual` in `BaseClass`. -/
def isVirtual : Method → Bool
  | .method1 => true
  | .method2 => true
  | .nonVirtualMethod => false

/-- Member lookup from a class: the nearest class of its lineage that
defines the member function. -/
def lookup (c : ClassName) (m : Method) : Option ClassName :=
  (lineage c).find? (fun k => (body k m).isSome)

/-- A handle on an object: the class the handle is typed with and the class
the object was created as. -/
structure Handle where
  static : ClassName
  dynamic : ClassName
  deriving DecidableEq

/-- The class whose definition runs for a call through a handle: for a
virtual member function the lookup starts at the class of the object, for a
non-virtual one at the class of the handle. -/
def dispatch (h : Handle) (m : Method) : Option ClassName :=
  if isVirtual m then lookup h.dynamic m else lookup h.static m

/-- The text written by a call through a handle. -/
def invoke (h : Handle) (m : Method) : List String :=
  match dispatch h m with
  | some k => (body k m).toList
  | none => []

/-- The function `main` of the example: the text it writes. -/
def main : List String :=
  let base : Handle := { static := .BaseClass, dynamic := .DerivedClass }
  let derived : Handle := { static := .DerivedClass, dynamic := .DerivedClass }
  let ptr : Handle := { static := .BaseClass, dynamic := .FurtherDerived }
  ["=== Virtual function calls ===\n"]
    ++ invoke base .method1 ++ invoke base .method2 ++ invoke base .nonVirtualMethod
    ++ ["\n=== Direct object calls ===\n"]
    ++ invoke derived .method1 ++ invoke derived .method2 ++ invoke derived .nonVirtualMethod
    ++ ["\n=== Multiple levels ===\n"]
    ++ invoke ptr .method1 ++ invoke ptr .method2

end VirtualFunctions

/-! ## IEEE 754 double precision

The definitions above read `double` as an exact rational. The namespace
`Binary64` gives the three pieces of the programs whose behaviour depends on
the difference (the bank account, `Calculator::divide` and the triangle) a
second embedding over IEEE 754 doubles: finite values, two infinities and
NaN, every arithmetic result rounded to the nearest double (ties to even).
-/

set_option exponentiation.threshold 2048

namespace Binary64

/-- A value of the C++ type `double` (IEEE 754 binary64): a finite number, an
infinity or NaN. `finite q` carries the exact value `q`; the operations below
produce only values a double can hold. The two zeros are one value (they
compare equal; only the printed sign of a zero and the sign of a quotient
by zero tell them apart). -/
inductive Double where
  | finite (q : ℚ)
  | posInf
  | negInf
  | nan
  deriving DecidableEq

namespace Double

/-- Unary minus. -/
def neg : Double → Double
  | finite q => finite (-q)
  | posInf => negInf
  | negInf => posInf
  | nan => nan

/-- The comparison `x <= y`: false as soon as an operand is NaN. -/
def le : Double → Double → Bool
  | nan, _ => false
  | _, nan => false
  | negInf, _ => true
  | _, posInf => true
  | finite p, finite q => decide (p ≤ q)
  | posInf, _ => false
  | finite _, negInf => false

/-- The comparison `x < y`: false as soon as an operand is NaN. -/
def lt : Double → Double → Bool
  | nan, _ => false
  | _, nan => false
  | finite p, finite q => decide (p < q)
  | negInf, negInf => false
  | negInf, _ => true
  | posInf, _ => false
  | finite _, posInf => true
  | finite _, negInf => false

/-- The comparison `x > y`. -/
def gt (x y : Double) : Bool := lt y x

/-- Number of binary digits of `n` (`fuel` bounds the number of halvings). -/
def bitLength : Nat → Nat → Nat
  | 0, _ => 0
  | fuel + 1, n => if n = 0 then 0 else bitLength fuel (n / 2) + 1

/-- The binary exponent of the positive fraction `n / d`: the integer `e`
with `2 ^ e ≤ n / d < 2 ^ (e + 1)`. -/
def exponent (n d : Nat) : Int :=
  let e : Int := (bitLength n n : Int) - (bitLength d d : Int)
  if n * 2 ^ (-e).toNat < d * 2 ^ e.toNat then e - 1 else e

/-- The double nearest to the non-negative fraction `n / d`, ties to even
(the default rounding mode): 53 significant bits, the spacing never below
`2 ^ (-1074)`, and infinity from `2 ^ 1024` on. -/
def nearestMagnitude (n d : Nat) : Double :=
  let e := exponent n d
  let qe := max e (-1022) - 52
  let m := roundHalfEven (n * 2 ^ (-qe).toNat) (d * 2 ^ qe.toNat)
  if 2 ^ 1024 * 2 ^ (-qe).toNat ≤ m * 2 ^ qe.toNat then posInf
  else finite (mkRat (m * 2 ^ qe.toNat) (2 ^ (-qe).toNat))

/-- The double nearest to the rational `q`: the result of an arithmetic
operation whose exact value is `q`. -/
def nearest (q : ℚ) : Double :=
  if q < 0 then neg (nearestMagnitude q.num.natAbs q.den)
  else nearestMagnitude q.num.natAbs q.den

/-- The sum `x + y`. -/
def add : Double → Double → Double
  | nan, _ => nan
  | _, nan => nan
  | posInf, negInf => nan
  | negInf, posInf => nan
  | posInf, _ => posInf
  | negInf, _ => negInf
  | finite _, posInf => posInf
  | finite _, negInf => negInf
  | finite p, finite q => nearest (p + q)

/-- The difference `x - y`. -/
def sub (x y : Double) : Double := add x (neg y)

/-- The product of an infinity and the finite value `q`; `positive` tells
the sign of the infinity. The result is NaN when `q = 0`. -/
def infTimes (positive : Bool) (q : ℚ) : Double :=
  if q = 0 then nan
  else if (decide (0 < q)) = positive then posInf else negInf

/-- The product `x * y`. -/
def mul : Double → Double → Double
  | nan, _ => nan
  | _, nan => nan
  | posInf, posInf => posInf
  | posInf, negInf => negInf
  | negInf, posInf => negInf
  | negInf, negInf => posInf
  | posInf, finite q => infTimes true q
  | negInf, finite q => infTimes false q
  | finite p, posInf => infTimes true p
  | finite p, negInf => infTimes false p
  | finite p, finite q => nearest (p * q)

/-- The quotient `x / y` (a zero divisor counts as `+0`). -/
def div : Double → Double → Double
  | nan, _ => nan
  | _, nan => nan
  | posInf, posInf => nan
  | posInf, negInf => nan
  | negInf, posInf => nan
  | negInf, negInf => nan
  | posInf, finite q => if 0 ≤ q then posInf else negInf
  | negInf, finite q => if 0 ≤ q then negInf else posInf
  | finite _, posInf => finite 0
  | finite _, negInf => finite 0
  | finite p, finite q => if q = 0 then infTimes true p else nearest (p / q)

/-- The conversion `static_cast<double>(a)` of an `int`: exact, every 32-bit
integer being a double. -/
def ofInt (a : Int) : Double := finite (a : ℚ)

/-- The text of `std::fixed << std::setprecision(2) << x`. -/
def fixed2 : Double → String
  | finite q => OopInCpp.fixed2 q
  | posInf => "inf"
  | negInf => "-inf"
  | nan => "nan"

/-- The text of `std::to_string(x)`. -/
def to_string : Double → String
  | finite q => OopInCpp.to_string q
  | posInf => "inf"
  | negInf => "-inf"
  | nan => "nan"

end Double

/-! ### 02-encapsulation/01_bank_account.cpp in double arithmetic -/

/-- The private data members of `class BankAccount`. -/
structure BankAccount where
  accountNumber : String
  accountHolder : String
  balance : Double
  transactionHistory : List String
  deriving DecidableEq

namespace BankAccount

/-- Private helper `recordTransaction`: `transactionHistory.push_back(description)`. -/
def recordTransaction (self : BankAccount) (description : String) : BankAccount :=
  { self with transactionHistory := self.transactionHistory ++ [description] }

/-- The constructor `BankAccount(accountNumber, accountHolder, initialBalance)`. -/
def new (accountNumber accountHolder : String) (initialBalance : Double) : BankAccount :=
  recordTransaction
    { accountNumber := accountNumber, accountHolder := accountHolder,
      balance := initialBalance, transactionHistory := [] }
    ("Account opened with initial balance: $" ++ Double.to_string initialBalance)

/-- Getter `getBalance() const`. -/
def getBalance (self : BankAccount) : Double := self.balance

/-- The outcome of a call of `deposit` or `withdraw`: the returned `bool`,
the account after the call and the text written to `std::cout`. -/
structure Outcome where
  ok : Bool
  account : BankAccount
  out : List String

/-- Member function `bool deposit(double amount)`. -/
def deposit (self : BankAccount) (amount : Double) : Outcome :=
  if Double.le amount (Double.finite 0) then
    { ok := false, account := self, out := ["Error: Deposit amount must be positive\n"] }
  else
    let s1 := { self with balance := Double.add self.balance amount }
    let s2 := s1.recordTransaction ("Deposited: $" ++ Double.to_string amount)
    { ok := true, account := s2,
      out := ["Deposit successful. New balance: $" ++ Double.fixed2 s2.balance ++ "\n"] }

/-- Member function `bool withdraw(double amount)`. -/
def withdraw (self : BankAccount) (amount : Double) : Outcome :=
  if Double.le amount (Double.finite 0) then
    { ok := false, account := self, out := ["Error: Withdrawal amount must be positive\n"] }
  else if Double.gt amount self.balance then
    { ok := false, account := self,
      out := ["Error: Insufficient funds. Available: $" ++ Double.fixed2 self.balance ++ "\n"] }
  else
    let s1 := { self with balance := Double.sub self.balance amount }
    let s2 := s1.recordTransaction ("Withdrew: $" ++ Double.to_string amount)
    { ok := true, account := s2,
      out := ["Withdrawal successful. New balance: $" ++ Double.fixed2 s2.balance ++ "\n"] }

/-- One call of the public mutating interface of `BankAccount`. -/
inductive Call where
  | deposit (amount : Double)
  | withdraw (amount : Double)
  deriving DecidableEq

/-- The argument of a call. -/
def Call.amount : Call → Double
  | .deposit amount => amount
  | .withdraw amount => amount

/-- Perform one call on the account. -/
def step (self : BankAccount) : Call → Outcome
  | .deposit amount => self.deposit amount
  | .withdraw amount => self.withdraw amount

/-- The account after a sequence of calls, performed from left to right. -/
def final (self : BankAccount) : List Call → BankAccount
  | [] => self
  | c :: cs => final (self.step c).account cs

/-- Every call of a sequence together with its outcome, in program order. -/
def trace (self : BankAccount) : List Call → List (Call × Outcome)
  | [] => []
  | c :: cs => (c, self.step c) :: trace (self.step c).account cs

/-- The account opened by `main`: `BankAccount account("ACC-12345", "Alice Smith", 1000.00)`. -/
def mainAccount : BankAccount := BankAccount.new "ACC-12345" "Alice Smith" (Double.finite 1000)

end BankAccount

/-! ### 01-abstraction/01_basic_class.cpp in double arithmetic -/

/-- Member function `double divide(int a, int b) const` of `Calculator`: the
returned value and the text written to `std::cerr`. -/
def Calculator.divide (_self : Calculator) (a b : Int) : Double × List String :=
  if b = 0 then
    (Double.finite 0, ["Error: Division by zero\n"])
  else
    (Double.div (Double.ofInt a) (Double.ofInt b), [])

/-! ### 01-abstraction/03_abstract_classes.cpp in double arithmetic -/

/-- The data members of `class Triangle` (with the `name` of its base `Shape`). -/
structure Triangle where
  name : String
  a : Double
  b : Double
  c : Double
  deriving DecidableEq

namespace Triangle

/-- The constructor `Triangle(name, a, b, c)`: it stores its arguments
without any check. -/
def new (name : String) (a b c : Double) : Triangle :=
  { name := name, a := a, b := b, c := c }

/-- The local `double s = (a + b + c) / 2.0` of `getArea`. -/
def semiPerimeter (self : Triangle) : Double :=
  Double.div (Double.add (Double.add self.a self.b) self.c) (Double.finite 2)

/-- The argument `s * (s - a) * (s - b) * (s - c)` that `getArea` passes to `std::sqrt`. -/
def radicand (self : Triangle) : Double :=
  let s := self.semiPerimeter
  Double.mul (Double.mul (Double.mul s (Double.sub s self.a)) (Double.sub s self.b))
    (Double.sub s self.c)

/-- Overrider `Triangle::getArea() const`. The library function `std::sqrt`
is a parameter of the embedding. -/
def getArea (sqrt : Double → Double) (self : Triangle) : Double := sqrt self.radicand

/-- Overrider `Triangle::getPerimeter() const`. -/
def getPerimeter (self : Triangle) : Double :=
  Double.add (Double.add self.a self.b) self.c

end Triangle

end Binary64

/-! ## Theorems: number formatting -/

theorem fixed2_whole_numbers :
    fixed2 1500 = "1500.00" ∧ fixed2 (-5) = "-5.00" ∧ fixed2 0 = "0.00" ∧
    to_string 500 = "500.000000" := by decide

theorem orderTotal_eq : orderTotal = Rat.mk' 9999 100 (by decide) (by decide) := by
  rw [Rat.mk'_eq_divInt, Rat.divInt_eq_div]
  norm_num [orderTotal]

theorem fixed2_orderTotal : fixed2 orderTotal = "99.99" := by
  rw [orderTotal_eq]
  decide

theorem fixed2_rounds_to_nearest :
    fixed2 (Rat.mk' 1 3 (by decide) (by decide)) = "0.33" ∧
    fixed2 (Rat.mk' 2 3 (by decide) (by decide)) = "0.67" ∧
    fixed2 (Rat.mk' (-1) 1000 (by decide) (by decide)) = "-0.00" := by decide

/-! ## Theorems: BankAccount -/

namespace BankAccount

theorem recordTransaction_balance (self : BankAccount) (d : String) :
    (self.recordTransaction d).balance = self.balance := rfl

theorem new_balance (n h : String) (b : ℚ) : (BankAccount.new n h b).getBalance = b := rfl

theorem deposit_ok_iff (self : BankAccount) (amount : ℚ) :
    (self.deposit amount).ok = true ↔ 0 < amount := by
  unfold deposit
  split_ifs with h
  · simp [h]
  · simpa using h

theorem withdraw_ok_iff (self : BankAccount) (amount : ℚ) :
    (self.withdraw amount).ok = true ↔ 0 < amount ∧ amount ≤ self.balance := by
  unfold withdraw
  split_ifs with h1 h2
  · simp [h1]
  · simp [h2]
  · simp only [true_iff]
    exact ⟨not_le.mp h1, not_lt.mp h2⟩

theorem deposit_balance (self : BankAccount) (amount : ℚ) :
    (self.deposit amount).account.balance =
      self.balance + (if (self.deposit amount).ok = true then amount else 0) := by
  by_cases h : amount ≤ 0
  · simp [deposit, h]
  · simp [deposit, h, recordTransaction]

theorem withdraw_balance (self : BankAccount) (amount : ℚ) :
    (self.withdraw amount).account.balance =
      self.balance - (if (self.withdraw amount).ok = true then amount else 0) := by
  by_cases h1 : amount ≤ 0
  · simp [withdraw, h1]
  · by_cases h2 : amount > self.balance
    · simp [withdraw, h1, h2]
    · simp [withdraw, h1, h2, recordTransaction]

theorem deposit_failed_unchanged (self : BankAccount) (amount : ℚ)
    (h : (self.deposit amount).ok = false) : (self.deposit amount).account = self := by
  by_cases h1 : amount ≤ 0
  · simp [deposit, h1]
  · simp [deposit, h1] at h

theorem withdraw_failed_unchanged (self : BankAccount) (amount : ℚ)
    (h : (self.withdraw amount).ok = false) : (self.withdraw amount).account = self := by
  by_cases h1 : amount ≤ 0
  · simp [withdraw, h1]
  · by_cases h2 : amount > self.balance
    · simp [withdraw, h1, h2]
    · simp [withdraw, h1, h2] at h

theorem final_balance (self : BankAccount) (cs : List Call) :
    (self.final cs).balance =
      self.balance + depositedTotal (self.trace cs) - withdrawnTotal (self.trace cs) := by
  induction cs generalizing self with
  | nil => simp [final, trace, depositedTotal, withdrawnTotal]
  | cons c cs ih =>
    cases c with
    | deposit amount =>
      simp only [final, trace, depositedTotal, withdrawnTotal, step]
      rw [ih, deposit_balance]
      ring
    | withdraw amount =>
      simp only [final, trace, depositedTotal, withdrawnTotal, step]
      rw [ih, withdraw_balance]
      ring

/-- C1: for every initial balance and every finite sequence of `deposit` /
`withdraw` calls, `getBalance` afterwards is the initial balance plus the
amounts of the deposits that returned `true` minus the amounts of the
withdrawals that returned `true`. -/
theorem balance_is_initial_plus_deposits_minus_withdrawals
    (accountNumber accountHolder : String) (initialBalance : ℚ) (cs : List Call) :
    ((BankAccount.new accountNumber accountHolder initialBalance).final cs).getBalance =
      initialBalance
        + depositedTotal ((BankAccount.new accountNumber accountHolder initialBalance).trace cs)
        - withdrawnTotal ((BankAccount.new accountNumber accountHolder initialBalance).trace cs) := by
  unfold getBalance
  rw [final_balance]
  rfl

/-- C3: from the account opened with 1000.00, the calls `deposit(500.00)`,
`withdraw(200.00)`, `withdraw(2000.00)`, `deposit(300.00)` return `true`,
`true`, `false`, `true` and leave the balances 1500.00, 1300.00, 1300.00,
1600.00. -/
theorem main_scenario :
    mainAccount.getBalance = 1000 ∧
    (mainAccount.trace mainCalls).map (fun e => (e.1, e.2.ok, e.2.account.getBalance)) =
      [(Call.deposit 500, true, 1500), (Call.withdraw 200, true, 1300),
       (Call.withdraw 2000, false, 1300), (Call.deposit 300, true, 1600)] ∧
    (mainAccount.final mainCalls).getBalance = 1600 := by
  refine ⟨rfl, ?_, ?_⟩ <;>
    norm_num [mainAccount, mainCalls, trace, final, step, deposit, withdraw, BankAccount.new,
      recordTransaction, getBalance]

/-- C4: `deposit(amount)` returns `false` if and only if `amount <= 0`; and
whenever `deposit` or `withdraw` returns `false`, the balance (indeed the whole
account) after the call is the one before the call, so every later sequence of
calls behaves exactly as it would have without the failed call. -/
theorem failed_call_changes_nothing (self : BankAccount) (amount : ℚ) (c : Call) :
    ((self.deposit amount).ok = false ↔ amount ≤ 0) ∧
    ((self.step c).ok = false →
      (self.step c).account.getBalance = self.getBalance ∧
      (self.step c).account = self ∧
      ∀ cs : List Call,
        (self.step c).account.trace cs = self.trace cs ∧
        (self.step c).account.final cs = self.final cs) := by
  constructor
  · rw [← not_lt, ← deposit_ok_iff self amount]
    simp
  · intro h
    have hacc : (self.step c).account = self := by
      cases c with
      | deposit a => exact deposit_failed_unchanged self a h
      | withdraw a => exact withdraw_failed_unchanged self a h
    rw [hacc]
    simp

theorem failed_call_changes_nothing_witness :
    ((mainAccount.deposit (-5)).ok = false ↔ (-5 : ℚ) ≤ 0) ∧
    (mainAccount.step (Call.withdraw 2000)).ok = false ∧
    (mainAccount.step (Call.withdraw 2000)).account.getBalance = mainAccount.getBalance ∧
    (mainAccount.step (Call.withdraw 2000)).account = mainAccount ∧
    ∀ cs : List Call,
      (mainAccount.step (Call.withdraw 2000)).account.trace cs = mainAccount.trace cs ∧
      (mainAccount.step (Call.withdraw 2000)).account.final cs = mainAccount.final cs :=
  have h := failed_call_changes_nothing mainAccount (-5) (Call.withdraw 2000)
  have hfail : (mainAccount.step (Call.withdraw 2000)).ok = false := by
    norm_num [mainAccount, step, withdraw, BankAccount.new, recordTransaction]
  ⟨h.1, hfail, h.2 hfail⟩

end BankAccount

/-! ## Theorems: payment processors -/

theorem printed_append (xs ys : List Event) : printed (xs ++ ys) = printed xs ++ printed ys := by
  induction xs with
  | nil => rfl
  | cons e xs ih => cases e <;> simp [printed, ih]

theorem printed_map_print (ls : List String) : printed (ls.map Event.print) = ls := by
  induction ls with
  | nil => rfl
  | cons l ls ih => simp [printed, ih]

theorem calls_append (xs ys : List Event) : calls (xs ++ ys) = calls xs ++ calls ys := by
  induction xs with
  | nil => rfl
  | cons e xs ih => cases e <;> simp [calls, ih]

theorem calls_map_print (ls : List String) : calls (ls.map Event.print) = [] := by
  induction ls with
  | nil => rfl
  | cons l ls ih => simp [calls, ih]

theorem printed_checkoutOrder (processor : PaymentProcessor) (cartTotal : ℚ) :
    printed (checkoutOrder processor cartTotal) =
      ["\n=== Checkout Order ===\n", "Using: " ++ processor.getProcessorName ++ "\n",
        "Total: $" ++ fixed2 cartTotal ++ "\n", "\nProcessing payment...\n"]
        ++ (processor.process cartTotal).2
        ++ [if (processor.process cartTotal).1 then "✓ Order completed successfully!\n"
            else "✗ Payment failed\n"] := by
  cases h : (processor.process cartTotal).1 <;>
    simp [checkoutOrder, PaymentProcessor.invokeGetProcessorName,
      PaymentProcessor.invokeProcess, printed_append, printed_map_print, printed, h]

theorem calls_checkoutOrder (processor : PaymentProcessor) (cartTotal : ℚ) :
    calls (checkoutOrder processor cartTotal) = [Operation.getProcessorName, Operation.process] := by
  cases h : (processor.process cartTotal).1 <;>
    simp [checkoutOrder, PaymentProcessor.invokeGetProcessorName,
      PaymentProcessor.invokeProcess, calls_append, calls_map_print, calls, h]

theorem process_returns_true (v : Variant) (amount : ℚ) :
    (v.processor.process amount).1 = true := by
  cases v <;> rfl

theorem string_ne_of_data_ne {a b : String} (h : a.data ≠ b.data) : a ≠ b :=
  fun e => h (congrArg String.data e)

/-- C5: for every payment processor variant and every strictly positive
amount, `process(amount)` returns `true`, and `checkoutOrder` prints the
order-completed line and never the payment-failed line. -/
theorem process_positive_amount_succeeds (v : Variant) (amount : ℚ) (_h : 0 < amount) :
    (v.processor.process amount).1 = true ∧
    "✓ Order completed successfully!\n" ∈ printed (checkoutOrder v.processor amount) ∧
    "✗ Payment failed\n" ∉ printed (checkoutOrder v.processor amount) := by
  refine ⟨process_returns_true v amount, ?_, ?_⟩
  · rw [printed_checkoutOrder, process_returns_true]
    simp
  · rw [printed_checkoutOrder, process_returns_true]
    cases v <;>
      simp [Variant.processor, CreditCardProcessor, PayPalProcessor, ApplePayProcessor,
        String.ext_iff]

theorem process_positive_amount_succeeds_witness :
    (0 : ℚ) < orderTotal ∧
    (Variant.payPal.processor.process orderTotal).1 = true ∧
    "✓ Order completed successfully!\n" ∈
      printed (checkoutOrder Variant.payPal.processor orderTotal) ∧
    "✗ Payment failed\n" ∉ printed (checkoutOrder Variant.payPal.processor orderTotal) :=
  ⟨by norm_num [orderTotal],
    process_positive_amount_succeeds Variant.payPal orderTotal (by norm_num [orderTotal])⟩

/-- C6: for every payment processor variant and every amount, the first
message of `process(amount)` and the message of `refund(amount)` both carry
the amount in fixed notation with two decimals, directly after the (first)
`$` sign of the message. -/
theorem process_and_refund_render_same_amount (v : Variant) (amount : ℚ) :
    ∃ pre suf pre' suf' : String,
      '$' ∉ pre.data ∧ '$' ∉ pre'.data ∧
      (v.processor.process amount).2.head? = some (pre ++ "$" ++ fixed2 amount ++ suf) ∧
      v.processor.refund amount = [pre' ++ "$" ++ fixed2 amount ++ suf'] := by
  cases v
  · exact ⟨"Processing ", " via credit card\n", "Refunding ", " to credit card\n",
      by decide, by decide, rfl, rfl⟩
  · exact ⟨"Processing ", " via PayPal\n", "Refunding ", " to PayPal account\n",
      by decide, by decide, rfl, rfl⟩
  · exact ⟨"Processing ", " via Apple Pay\n", "Refunding ", " via Apple Pay\n",
      by decide, by decide, rfl, rfl⟩

/-- C7, as the claim states it, fails: `checkoutOrder` does not call `refund`
on a credit card processor, so not every operation of the contract is invoked. -/
theorem checkout_invokes_all_operations_counterexample :
    ¬ (∀ v : Variant, ∀ op : Operation, op ∈ calls (checkoutOrder v.processor orderTotal)) := by
  intro h
  have h1 := h Variant.creditCard Operation.refund
  rw [calls_checkoutOrder] at h1
  simp at h1

/-- C7, amended: on any processor it is given (so on each of the three
variants) `checkoutOrder` calls `getProcessorName` and then `process`, once
each, and never `refund`; what it does is determined by the results of these
two calls alone, whichever variant it holds; and `main` runs it on each of
the three variants. -/
theorem checkout_invokes_name_and_process (processor other : PaymentProcessor)
    (cartTotal : ℚ) :
    calls (checkoutOrder processor cartTotal) = [Operation.getProcessorName, Operation.process] ∧
    Operation.refund ∉ calls (checkoutOrder processor cartTotal) ∧
    (processor.getProcessorName = other.getProcessorName →
      processor.process cartTotal = other.process cartTotal →
      checkoutOrder processor cartTotal = checkoutOrder other cartTotal) ∧
    paymentMain =
      checkoutOrder Variant.creditCard.processor orderTotal
        ++ checkoutOrder Variant.payPal.processor orderTotal
        ++ checkoutOrder Variant.applePay.processor orderTotal
        ++ [Event.print "\n\n=== Dynamic Processor Selection ===\n"]
        ++ checkoutOrder Variant.payPal.processor orderTotal := by
  refine ⟨calls_checkoutOrder processor cartTotal, ?_, ?_, rfl⟩
  · rw [calls_checkoutOrder]
    simp
  · intro hn hp
    simp [checkoutOrder, PaymentProcessor.invokeGetProcessorName,
      PaymentProcessor.invokeProcess, hn, hp]

theorem checkout_invokes_name_and_process_witness :
    calls (checkoutOrder CreditCardProcessor orderTotal) =
      [Operation.getProcessorName, Operation.process] ∧
    Operation.refund ∉ calls (checkoutOrder CreditCardProcessor orderTotal) ∧
    checkoutOrder CreditCardProcessor orderTotal =
      checkoutOrder { CreditCardProcessor with refund := fun _ => [] } orderTotal :=
  have h := checkout_invokes_name_and_process CreditCardProcessor
    { CreditCardProcessor with refund := fun _ => [] } orderTotal
  ⟨h.1, h.2.1, h.2.2.1 rfl rfl⟩

/-- C8, as the claim states it, fails: for the non-positive amount -5 the
credit card processor returns `true` and prints its usual four lines, ending
with the approval; no line is an error message. -/
theorem process_nonpositive_counterexample :
    ¬ (∀ v : Variant, ∀ amount : ℚ, amount ≤ 0 →
        (v.processor.process amount).1 = false ∨
        ∃ m ∈ (v.processor.process amount).2, isErrorMessage m = true) := by
  intro h
  have h1 := h Variant.creditCard (-5) (by norm_num)
  have h2 : Variant.creditCard.processor.process (-5) =
      (true, ["Processing $-5.00 via credit card\n", "  Connecting to payment gateway...\n",
        "  Verifying card details...\n", "  Transaction approved!\n"]) := by
    decide
  rw [h2] at h1
  revert h1
  decide

/-- The last line printed by `process` for each variant. -/
theorem process_last_line (v : Variant) (amount : ℚ) :
    (v.processor.process amount).2.getLast? =
      some (match v with
        | .creditCard => "  Transaction approved!\n"
        | .payPal => "  Transaction completed!\n"
        | .applePay => "  Transaction authorized!\n") := by
  cases v <;> rfl

/-- C8, amended: `process` does not validate the amount. For every variant
and every amount, also a non-positive one, it returns `true`, prints four
lines of which the last reports the approved / completed / authorized
transaction, and none of which is an error message. -/
theorem process_never_reports_invalid (v : Variant) (amount : ℚ) :
    (v.processor.process amount).1 = true ∧
    (v.processor.process amount).2.length = 4 ∧
    (v.processor.process amount).2.getLast? =
      some (match v with
        | .creditCard => "  Transaction approved!\n"
        | .payPal => "  Transaction completed!\n"
        | .applePay => "  Transaction authorized!\n") ∧
    ∀ m ∈ (v.processor.process amount).2, isErrorMessage m = false := by
  refine ⟨process_returns_true v amount, ?_, process_last_line v amount, ?_⟩
  · cases v <;> rfl
  · cases v <;>
      simp [Variant.processor, CreditCardProcessor, PayPalProcessor, ApplePayProcessor,
        isErrorMessage, List.isPrefixOf]

/-! ## Theorems: shapes -/

/-- C10: for every Circle, Rectangle and Triangle, `getArea` and
`getPerimeter` depend only on the geometric attributes fixed at construction
and leave the object unchanged, so asking twice gives identical results;
Rectangle gives `width * height` and `2 * (width + height)`, and the
perimeter of a Triangle is `a + b + c`. -/
theorem shape_queries_pure (sqrt : ℚ → ℚ) (s t : Shape) (q : Shape.Query)
    (r : Rectangle) (tr : Triangle) :
    (Shape.sameClass s t = true → s.attributes = t.attributes →
      (s.ask sqrt q).1 = (t.ask sqrt q).1) ∧
    (s.ask sqrt q).2 = s ∧
    ((s.ask sqrt q).2.ask sqrt q).1 = (s.ask sqrt q).1 ∧
    r.getArea = r.width * r.height ∧
    r.getPerimeter = 2 * (r.width + r.height) ∧
    tr.getPerimeter = tr.a + tr.b + tr.c := by
  refine ⟨?_, ?_, ?_, rfl, rfl, rfl⟩
  · intro hc ha
    cases s <;> cases t <;> simp [Shape.sameClass] at hc <;>
      cases q <;>
      simp_all [Shape.attributes, Shape.ask, Shape.getArea, Shape.getPerimeter,
        Circle.getArea, Circle.getPerimeter, Rectangle.getArea, Rectangle.getPerimeter,
        Triangle.getArea, Triangle.getPerimeter, Triangle.radicand]
  · cases q <;> rfl
  · cases q <;> rfl

theorem shape_queries_pure_witness :
    ((Shape.circle { name := "My Circle", radius := 5 }).ask id Shape.Query.area).1 =
      ((Shape.circle { name := "Another Circle", radius := 5 }).ask id Shape.Query.area).1 ∧
    Rectangle.getArea { name := "My Rectangle", width := 4, height := 6 } = 4 * 6 ∧
    Rectangle.getPerimeter { name := "My Rectangle", width := 4, height := 6 } = 2 * (4 + 6) ∧
    Triangle.getPerimeter { name := "My Triangle", a := 3, b := 4, c := 5 } = 3 + 4 + 5 :=
  have h := shape_queries_pure id
    (Shape.circle { name := "My Circle", radius := 5 })
    (Shape.circle { name := "Another Circle", radius := 5 }) Shape.Query.area
    { name := "My Rectangle", width := 4, height := 6 }
    { name := "My Triangle", a := 3, b := 4, c := 5 }
  ⟨h.1 rfl rfl, h.2.2.2.1, h.2.2.2.2.1, h.2.2.2.2.2⟩

/-! ## Theorems: virtual functions -/

namespace VirtualFunctions

/-- C11: through a `BaseClass` handle, `method1` and `method2` run the
definition of the class the object was created as (`DerivedClass` or
`FurtherDerived`), while `nonVirtualMethod` runs the definition of
`BaseClass` whatever the object is; called on a `DerivedClass` object
directly, `nonVirtualMethod` runs the shadowing definition of `DerivedClass`. -/
theorem dispatch_through_base_handle (dyn : ClassName) (h : dyn ≠ ClassName.BaseClass) :
    dispatch { static := .BaseClass, dynamic := dyn } .method1 = some dyn ∧
    dispatch { static := .BaseClass, dynamic := dyn } .method2 = some dyn ∧
    dispatch { static := .BaseClass, dynamic := dyn } .nonVirtualMethod = some .BaseClass ∧
    invoke { static := .BaseClass, dynamic := dyn } .method1 = (body dyn .method1).toList ∧
    invoke { static := .BaseClass, dynamic := dyn } .method2 = (body dyn .method2).toList ∧
    invoke { static := .BaseClass, dynamic := dyn } .nonVirtualMethod =
      ["BaseClass::nonVirtualMethod (not virtual)\n"] ∧
    dispatch { static := .DerivedClass, dynamic := .DerivedClass } .nonVirtualMethod =
      some .DerivedClass ∧
    invoke { static := .DerivedClass, dynamic := .DerivedClass } .nonVirtualMethod =
      ["DerivedClass::nonVirtualMethod (shadows, not overrides)\n"] ∧
    main =
      ["=== Virtual function calls ===\n",
       "DerivedClass::method1 (overridden)\n",
       "DerivedClass::method2 (implemented)\n",
       "BaseClass::nonVirtualMethod (not virtual)\n",
       "\n=== Direct object calls ===\n",
       "DerivedClass::method1 (overridden)\n",
       "DerivedClass::method2 (implemented)\n",
       "DerivedClass::nonVirtualMethod (shadows, not overrides)\n",
       "\n=== Multiple levels ===\n",
       "FurtherDerived::method1\n",
       "FurtherDerived::method2\n"] := by
  cases dyn with
  | BaseClass => exact absurd rfl h
  | DerivedClass => decide
  | FurtherDerived => decide

theorem dispatch_through_base_handle_witness :
    dispatch { static := .BaseClass, dynamic := .FurtherDerived } .method1 =
      some .FurtherDerived ∧
    dispatch { static := .BaseClass, dynamic := .FurtherDerived } .method2 =
      some .FurtherDerived ∧
    dispatch { static := .BaseClass, dynamic := .FurtherDerived } .nonVirtualMethod =
      some .BaseClass ∧
    invoke { static := .BaseClass, dynamic := .FurtherDerived } .method1 =
      ["FurtherDerived::method1\n"] :=
  have h := dispatch_through_base_handle ClassName.FurtherDerived (by decide)
  ⟨h.1, h.2.1, h.2.2.1, h.2.2.2.1⟩

end VirtualFunctions

/-! ## Theorems: Car -/

namespace Car

theorem step_attributes (self : Car) (c : Call) :
    (self.step c).1.brand = self.brand ∧ (self.step c).1.model = self.model ∧
    (self.step c).1.year = self.year := by
  cases c <;>
    simp only [step, startEngine, stopEngine, accelerate, decelerate] <;>
    split_ifs <;> simp

theorem step_speed_invariant (self : Car) (c : Call)
    (h : 0 ≤ self.speed ∧ self.speed ≤ 200 ∧ 10 ∣ self.speed ∧
      (self.isRunning = false → self.speed = 0)) :
    0 ≤ (self.step c).1.speed ∧ (self.step c).1.speed ≤ 200 ∧ 10 ∣ (self.step c).1.speed ∧
      ((self.step c).1.isRunning = false → (self.step c).1.speed = 0) := by
  obtain ⟨h0, h1, h2, h3⟩ := h
  cases c with
  | startEngine =>
    simp only [step, startEngine]
    split_ifs with hc
    · exact ⟨h0, h1, h2, by simp⟩
    · exact ⟨h0, h1, h2, h3⟩
  | stopEngine =>
    simp only [step, stopEngine]
    split_ifs with hc
    · simp
    · exact ⟨h0, h1, h2, h3⟩
  | accelerate =>
    simp only [step, accelerate]
    split_ifs with hc
    · simp only [Bool.and_eq_true, decide_eq_true_eq] at hc
      dsimp only
      refine ⟨by omega, by omega, by omega, ?_⟩
      intro hr
      simp [hc.1] at hr
    · exact ⟨h0, h1, h2, h3⟩
  | decelerate =>
    simp only [step, decelerate]
    split_ifs with hc
    · dsimp only
      refine ⟨by omega, by omega, by omega, ?_⟩
      intro hr
      have := h3 hr
      omega
    · exact ⟨h0, h1, h2, h3⟩

theorem states_invariant (self : Car) (cs : List Call)
    (h : 0 ≤ self.speed ∧ self.speed ≤ 200 ∧ 10 ∣ self.speed ∧
      (self.isRunning = false → self.speed = 0)) :
    ∀ s ∈ self.states cs,
      (0 ≤ s.speed ∧ s.speed ≤ 200 ∧ 10 ∣ s.speed ∧ (s.isRunning = false → s.speed = 0)) ∧
      s.brand = self.brand ∧ s.model = self.model ∧ s.year = self.year := by
  induction cs generalizing self with
  | nil => simp [states]
  | cons c cs ih =>
    intro s hs
    simp only [states, List.mem_cons] at hs
    have hstep := step_speed_invariant self c h
    have hattr := step_attributes self c
    rcases hs with rfl | hs
    · exact ⟨hstep, hattr⟩
    · have := ih _ hstep s hs
      exact ⟨this.1, this.2.1.trans hattr.1, this.2.2.1.trans hattr.2.1,
        this.2.2.2.trans hattr.2.2⟩

/-- C13: for a freshly constructed `Car` and any finite sequence of
`startEngine`, `stopEngine`, `accelerate` and `decelerate` calls, after every
call `0 <= speed <= 200`, `speed` is a multiple of 10, the speed is 0 when the
engine is not running, and brand, model and year are those given to the
constructor. -/
theorem car_invariant (brand model : String) (year : Int) (cs : List Call) :
    ∀ s ∈ (Car.new brand model year).states cs,
      0 ≤ s.speed ∧ s.speed ≤ 200 ∧ 10 ∣ s.speed ∧ (s.isRunning = false → s.speed = 0) ∧
      s.brand = brand ∧ s.model = model ∧ s.year = year := by
  intro s hs
  have h := states_invariant (Car.new brand model year) cs
    ⟨le_refl _, by simp [Car.new], by simp [Car.new], fun _ => rfl⟩ s hs
  exact ⟨h.1.1, h.1.2.1, h.1.2.2.1, h.1.2.2.2, h.2.1, h.2.2.1, h.2.2.2⟩

theorem car_invariant_witness :
    (myCar.states mainCalls).map (fun s => (s.isRunning, s.speed)) =
      [(true, 0), (true, 10), (true, 20), (true, 10), (false, 0)] ∧
    (0 : Int) ≤ 20 ∧ (20 : Int) ≤ 200 ∧ (10 : Int) ∣ 20 ∧
    ((Car.mk "Toyota" "Corolla" 2023 true 20).isRunning = false → (20 : Int) = 0) ∧
    "Toyota" = "Toyota" ∧ "Corolla" = "Corolla" ∧ (2023 : Int) = 2023 :=
  ⟨by decide,
    car_invariant "Toyota" "Corolla" 2023 mainCalls (Car.mk "Toyota" "Corolla" 2023 true 20)
      (by decide)⟩

end Car

/-! ## Theorems: Calculator, the stored result -/

namespace Calculator

theorem step_object (self : Calculator) (c : Call) : (self.step c).2 = self := by
  cases c <;> rfl

theorem final_object (self : Calculator) (cs : List Call) : self.final cs = self := by
  induction cs with
  | nil => rfl
  | cons c cs ih => simpa [final, step_object] using ih

theorem returned_getLastResult (self : Calculator) (cs : List Call) :
    ∀ e ∈ self.returned cs, e.1 = Call.getLastResult → e.2 = Value.int self.lastResult := by
  induction cs with
  | nil => simp [returned]
  | cons c cs ih =>
    intro e he hc
    simp only [returned, List.mem_cons, step_object] at he
    rcases he with rfl | he
    · simp only at hc
      subst hc
      rfl
    · exact ih e he hc

/-- C14: for a `Calculator` and any finite sequence of calls of its public
operations with arbitrary arguments, every `getLastResult` returns 0: no
public operation changes the object, so no computed result is ever stored. -/
theorem getLastResult_always_zero (cs : List Call) :
    (Calculator.new.final cs).getLastResult = 0 ∧
    (∀ e ∈ Calculator.new.returned cs, e.1 = Call.getLastResult → e.2 = Value.int 0) ∧
    ∀ (self : Calculator) (c : Call), (self.step c).2 = self := by
  refine ⟨?_, ?_, step_object⟩
  · rw [final_object]
    rfl
  · exact returned_getLastResult Calculator.new cs

theorem getLastResult_always_zero_witness :
    (Calculator.new.returned [Call.add 10 5, Call.getLastResult, Call.multiply 4 7,
      Call.getLastResult]).map Prod.snd =
      [Value.int 15, Value.int 0, Value.int 28, Value.int 0] ∧
    (Calculator.new.final [Call.add 10 5, Call.getLastResult, Call.multiply 4 7,
      Call.getLastResult]).getLastResult = 0 ∧
    Value.int 0 = Value.int 0 :=
  have h := getLastResult_always_zero
    [Call.add 10 5, Call.getLastResult, Call.multiply 4 7, Call.getLastResult]
  ⟨by decide, h.1, h.2.1 (Call.getLastResult, Value.int 0) (by decide) rfl⟩

end Calculator

/-! ## Theorems: rounding to the nearest double -/

namespace Binary64

open Double

theorem roundHalfEven_mul_le (n d : Nat) (hd : 0 < d) : roundHalfEven n d * d ≤ 2 * n := by
  have h1 := Nat.div_add_mod n d
  have h2 := Nat.mod_lt n hd
  have h3 : d * (n / d) = (n / d) * d := Nat.mul_comm _ _
  unfold roundHalfEven
  simp only
  split_ifs with ha hb hc
  · rw [Nat.add_mul]; omega
  · omega
  · rw [Nat.add_mul]
    have : 1 ≤ n / d := by
      rcases Nat.eq_zero_or_pos (n / d) with h0 | h0
      · rw [h0] at hc; simp at hc
      · exact h0
    have : d ≤ (n / d) * d := Nat.le_mul_of_pos_left d this
    omega
  · omega

theorem roundHalfEven_error (n d : Nat) (hd : 0 < d) :
    2 * (roundHalfEven n d * d) ≤ 2 * n + d ∧ 2 * n ≤ 2 * (roundHalfEven n d * d) + d := by
  have h1 := Nat.div_add_mod n d
  have h2 := Nat.mod_lt n hd
  have h3 : d * (n / d) = (n / d) * d := Nat.mul_comm _ _
  unfold roundHalfEven
  simp only
  split_ifs with ha hb hc
  · rw [Nat.add_mul]; omega
  · omega
  · rw [Nat.add_mul]; omega
  · omega

theorem bitLength_spec (fuel n : Nat) (h : n ≤ fuel) (hn : 0 < n) :
    n < 2 ^ bitLength fuel n ∧ 2 ^ bitLength fuel n ≤ 2 * n := by
  induction fuel generalizing n with
  | zero => omega
  | succ fuel ih =>
    have hne : n ≠ 0 := by omega
    simp only [bitLength, hne, if_false]
    by_cases h1 : n / 2 = 0
    · have hn1 : n = 1 := by omega
      subst hn1
      cases fuel <;> simp [bitLength]
    · have := ih (n / 2) (by omega) (by omega)
      rw [pow_succ]
      omega

theorem two_zpow_split (e : Int) :
    (2 : ℚ) ^ e = (2 : ℚ) ^ e.toNat / (2 : ℚ) ^ (-e).toNat := by
  rcases le_total 0 e with h | h
  · have h1 : (-e).toNat = 0 := Int.toNat_eq_zero.mpr (by omega)
    have h2 : (e.toNat : Int) = e := Int.toNat_of_nonneg h
    rw [h1, pow_zero, div_one, ← zpow_natCast, h2]
  · have h1 : e.toNat = 0 := Int.toNat_eq_zero.mpr h
    have h2 : ((-e).toNat : Int) = -e := Int.toNat_of_nonneg (by omega)
    rw [h1, pow_zero, one_div, ← zpow_natCast, h2, zpow_neg, inv_inv]

theorem exponent_spec (n d : Nat) (hn : 0 < n) (hd : 0 < d) :
    (2 : ℚ) ^ exponent n d ≤ (n : ℚ) / d ∧ (n : ℚ) / d < (2 : ℚ) ^ (exponent n d + 1) := by
  obtain ⟨hn1, hn2⟩ := bitLength_spec n n le_rfl hn
  obtain ⟨hd1, hd2⟩ := bitLength_spec d d le_rfl hd
  have hdq : (0 : ℚ) < d := by exact_mod_cast hd
  have hn1q : (n : ℚ) < 2 ^ bitLength n n := by exact_mod_cast hn1
  have hn2q : (2 : ℚ) ^ bitLength n n ≤ 2 * n := by exact_mod_cast hn2
  have hd1q : (d : ℚ) < 2 ^ bitLength d d := by exact_mod_cast hd1
  have hd2q : (2 : ℚ) ^ bitLength d d ≤ 2 * d := by exact_mod_cast hd2
  have hpd : (0 : ℚ) < 2 ^ bitLength d d := by positivity
  have he0 : (2 : ℚ) ^ ((bitLength n n : Int) - (bitLength d d : Int)) =
      (2 : ℚ) ^ bitLength n n / (2 : ℚ) ^ bitLength d d := by
    rw [zpow_sub₀ (by norm_num), zpow_natCast, zpow_natCast]
  have htest : ∀ e : Int, (n * 2 ^ (-e).toNat < d * 2 ^ e.toNat) ↔ (n : ℚ) / d < (2 : ℚ) ^ e := by
    intro e
    have hB : (0 : ℚ) < 2 ^ (-e).toNat := by positivity
    rw [two_zpow_split e, div_lt_div_iff₀ hdq hB]
    constructor
    · intro h
      have : ((n * 2 ^ (-e).toNat : Nat) : ℚ) < ((d * 2 ^ e.toNat : Nat) : ℚ) := by exact_mod_cast h
      push_cast at this
      linarith
    · intro h
      have : ((n * 2 ^ (-e).toNat : Nat) : ℚ) < ((d * 2 ^ e.toNat : Nat) : ℚ) := by
        push_cast
        linarith
      exact_mod_cast this
  unfold exponent
  simp only
  split_ifs with ht
  · rw [htest] at ht
    refine ⟨?_, by simpa using ht⟩
    rw [zpow_sub_one₀ (by norm_num), he0, div_mul_eq_mul_div, div_le_div_iff₀ hpd hdq]
    nlinarith
  · rw [htest, not_lt] at ht
    refine ⟨ht, ?_⟩
    rw [zpow_add_one₀ (by norm_num), he0, div_mul_eq_mul_div, div_lt_div_iff₀ hdq hpd]
    nlinarith

theorem mkRat_scaled (m : Nat) (qe : Int) :
    mkRat ((m : Int) * 2 ^ qe.toNat) (2 ^ (-qe).toNat) = (m : ℚ) * (2 : ℚ) ^ qe := by
  rw [Rat.mkRat_eq_div, two_zpow_split qe]
  push_cast
  ring

/-- The scaled numerator and denominator handed to `roundHalfEven` represent
`(n / d) / 2 ^ qe`. -/
theorem scaled_fraction (n d : Nat) (qe : Int) (hd : 0 < d) :
    ((n * 2 ^ (-qe).toNat : Nat) : ℚ) / ((d * 2 ^ qe.toNat : Nat) : ℚ) =
      ((n : ℚ) / d) / (2 : ℚ) ^ qe := by
  have hdq : (d : ℚ) ≠ 0 := by exact_mod_cast hd.ne'
  rw [two_zpow_split qe]
  push_cast
  field_simp

theorem nearestMagnitude_bound (n d : Nat) (hd : 0 < d) (h : (n : ℚ) / d < 2 ^ 1023) :
    ∃ r : ℚ, nearestMagnitude n d = finite r ∧ 0 ≤ r ∧ r ≤ 2 * ((n : ℚ) / d) := by
  unfold nearestMagnitude
  simp only
  generalize max (exponent n d) (-1022) - 52 = qe
  have hA : (0 : ℚ) < 2 ^ qe.toNat := by positivity
  have hB : (0 : ℚ) < 2 ^ (-qe).toNat := by positivity
  have hdq : (0 : ℚ) < d := by exact_mod_cast hd
  have hD : 0 < d * 2 ^ qe.toNat := Nat.mul_pos hd (by positivity)
  have hm := roundHalfEven_mul_le (n * 2 ^ (-qe).toNat) (d * 2 ^ qe.toNat) hD
  generalize roundHalfEven (n * 2 ^ (-qe).toNat) (d * 2 ^ qe.toNat) = m at hm ⊢
  have hmq : (m : ℚ) * (d * 2 ^ qe.toNat) ≤ 2 * (n * 2 ^ (-qe).toNat) := by exact_mod_cast hm
  have hval : (m : ℚ) * (2 : ℚ) ^ qe ≤ 2 * ((n : ℚ) / d) := by
    rw [two_zpow_split qe, ← mul_div_assoc, ← mul_div_assoc, div_le_div_iff₀ hB hdq]
    nlinarith
  have hno : ¬ (2 ^ 1024 * 2 ^ (-qe).toNat ≤ m * 2 ^ qe.toNat) := by
    intro hov
    have hovq : (2 : ℚ) ^ 1024 * 2 ^ (-qe).toNat ≤ m * 2 ^ qe.toNat := by exact_mod_cast hov
    have h3 : (2 : ℚ) ^ 1024 ≤ (m : ℚ) * (2 : ℚ) ^ qe := by
      rw [two_zpow_split qe, ← mul_div_assoc, le_div_iff₀ hB]
      exact hovq
    have h4 : (2 : ℚ) ^ 1024 = 2 * 2 ^ 1023 := by
      rw [show (1024 : Nat) = 1023 + 1 from rfl, pow_succ]
      ring
    linarith
  rw [if_neg hno]
  refine ⟨_, rfl, ?_, ?_⟩
  · rw [mkRat_scaled]
    exact mul_nonneg (Nat.cast_nonneg m) (zpow_nonneg (by norm_num) qe)
  · rw [mkRat_scaled]
    exact hval

theorem nearestMagnitude_nonneg (n d : Nat) :
    nearestMagnitude n d = posInf ∨ ∃ r : ℚ, nearestMagnitude n d = finite r ∧ 0 ≤ r := by
  unfold nearestMagnitude
  simp only
  split_ifs with h
  · exact Or.inl rfl
  · refine Or.inr ⟨_, rfl, ?_⟩
    rw [mkRat_scaled]
    exact mul_nonneg (Nat.cast_nonneg _) (zpow_nonneg (by norm_num) _)

theorem nearestMagnitude_error (n d : Nat) (hd : 0 < d)
    (h1 : (2 : ℚ) ^ (-1022 : Int) ≤ (n : ℚ) / d) (h2 : (n : ℚ) / d < 2 ^ 1023) :
    ∃ r : ℚ, nearestMagnitude n d = finite r ∧ |r - (n : ℚ) / d| ≤ ((n : ℚ) / d) / 2 ^ 53 := by
  have hdq : (0 : ℚ) < d := by exact_mod_cast hd
  have hqpos : (0 : ℚ) < (n : ℚ) / d := lt_of_lt_of_le (by positivity) h1
  have hn : 0 < n := by
    rcases Nat.eq_zero_or_pos n with h0 | h0
    · rw [h0] at hqpos; simp at hqpos
    · exact h0
  obtain ⟨he1, he2⟩ := exponent_spec n d hn hd
  have hemin : -1022 ≤ exponent n d := by
    have : (2 : ℚ) ^ (-1022 : Int) < (2 : ℚ) ^ (exponent n d + 1) := lt_of_le_of_lt h1 he2
    have := (zpow_lt_zpow_iff_right₀ (by norm_num : (1 : ℚ) < 2)).mp this
    omega
  obtain ⟨r, hr, -, -⟩ := nearestMagnitude_bound n d hd h2
  refine ⟨r, hr, ?_⟩
  have hno : ∀ (qe : Int) (m : Nat), finite r = (if 2 ^ 1024 * 2 ^ (-qe).toNat ≤ m * 2 ^ qe.toNat then posInf
      else finite (mkRat ((m : Int) * 2 ^ qe.toNat) (2 ^ (-qe).toNat))) →
      r = (m : ℚ) * (2 : ℚ) ^ qe := by
    intro qe m h
    split_ifs at h with hc
    rw [← mkRat_scaled]
    exact Double.finite.inj h
  unfold nearestMagnitude at hr
  simp only at hr
  rw [max_eq_left hemin] at hr
  have hrv := hno _ _ hr.symm
  set qe := exponent n d - 52 with hqe
  have hD : 0 < d * 2 ^ qe.toNat := Nat.mul_pos hd (by positivity)
  obtain ⟨hm1, hm2⟩ := roundHalfEven_error (n * 2 ^ (-qe).toNat) (d * 2 ^ qe.toNat) hD
  generalize roundHalfEven (n * 2 ^ (-qe).toNat) (d * 2 ^ qe.toNat) = m at hm1 hm2 hrv
  have hA : (0 : ℚ) < 2 ^ qe.toNat := by positivity
  have hB : (0 : ℚ) < 2 ^ (-qe).toNat := by positivity
  have hm1q : 2 * ((m : ℚ) * (d * 2 ^ qe.toNat)) ≤ 2 * (n * 2 ^ (-qe).toNat) + d * 2 ^ qe.toNat := by
    exact_mod_cast hm1
  have hm2q : 2 * ((n : ℚ) * 2 ^ (-qe).toNat) ≤ 2 * (m * (d * 2 ^ qe.toNat)) + d * 2 ^ qe.toNat := by
    exact_mod_cast hm2
  have hpow : (2 : ℚ) ^ qe = (2 : ℚ) ^ exponent n d / 2 ^ 52 := by
    rw [hqe, zpow_sub₀ (by norm_num)]
    norm_num
  have hpos : (0 : ℚ) < (2 : ℚ) ^ qe := by positivity
  have hsplit := two_zpow_split qe
  -- half a unit in the last place
  have hhalf : |r - (n : ℚ) / d| ≤ (2 : ℚ) ^ qe / 2 := by
    rw [hrv, abs_le]
    have hAB : (2 : ℚ) ^ qe * 2 ^ (-qe).toNat = 2 ^ qe.toNat := by
      rw [hsplit]; field_simp
    have hnd : (n : ℚ) = (n : ℚ) / d * d := by field_simp
    constructor
    · have : (n : ℚ) / d * (d * 2 ^ (-qe).toNat) ≤
          ((m : ℚ) * 2 ^ qe + 2 ^ qe / 2) * (d * 2 ^ (-qe).toNat) := by
        have e1 : ((m : ℚ) * 2 ^ qe + 2 ^ qe / 2) * (d * 2 ^ (-qe).toNat) =
            m * (d * ((2 : ℚ) ^ qe * 2 ^ (-qe).toNat)) + d * ((2 : ℚ) ^ qe * 2 ^ (-qe).toNat) / 2 := by
          ring
        have e2 : (n : ℚ) / d * (d * 2 ^ (-qe).toNat) = n * 2 ^ (-qe).toNat := by
          field_simp
          ring
        rw [e1, e2, hAB]
        linarith
      have hpos2 : (0 : ℚ) < d * 2 ^ (-qe).toNat := by positivity
      have := le_of_mul_le_mul_right this hpos2
      linarith
    · have : ((m : ℚ) * 2 ^ qe - 2 ^ qe / 2) * (d * 2 ^ (-qe).toNat) ≤
          (n : ℚ) / d * (d * 2 ^ (-qe).toNat) := by
        have e1 : ((m : ℚ) * 2 ^ qe - 2 ^ qe / 2) * (d * 2 ^ (-qe).toNat) =
            m * (d * ((2 : ℚ) ^ qe * 2 ^ (-qe).toNat)) - d * ((2 : ℚ) ^ qe * 2 ^ (-qe).toNat) / 2 := by
          ring
        have e2 : (n : ℚ) / d * (d * 2 ^ (-qe).toNat) = n * 2 ^ (-qe).toNat := by
          field_simp
          ring
        rw [e1, e2, hAB]
        linarith
      have hpos2 : (0 : ℚ) < d * 2 ^ (-qe).toNat := by positivity
      have := le_of_mul_le_mul_right this hpos2
      linarith
  calc |r - (n : ℚ) / d| ≤ (2 : ℚ) ^ qe / 2 := hhalf
    _ = (2 : ℚ) ^ exponent n d / 2 ^ 53 := by rw [hpow]; ring
    _ ≤ ((n : ℚ) / d) / 2 ^ 53 := by
        apply div_le_div_of_nonneg_right he1; positivity

theorem natAbs_num_div_den (q : ℚ) : (q.num.natAbs : ℚ) / (q.den : ℚ) = |q| := by
  have hd : (0 : ℚ) < q.den := by exact_mod_cast q.den_pos
  have h1 : ((q.num.natAbs : Nat) : ℚ) = |(q.num : ℚ)| := by
    rw [Nat.cast_natAbs, Int.cast_abs]
  rw [h1]
  conv_rhs => rw [← Rat.num_div_den q]
  rw [abs_div, abs_of_pos hd]

theorem nearest_nonneg (q : ℚ) (h0 : 0 ≤ q) :
    nearest q = posInf ∨ ∃ r : ℚ, nearest q = finite r ∧ 0 ≤ r := by
  unfold nearest
  rw [if_neg (not_lt.mpr h0)]
  exact nearestMagnitude_nonneg _ _

theorem nearest_bound (q : ℚ) (h0 : 0 ≤ q) (h : q < 2 ^ 1023) :
    ∃ r : ℚ, nearest q = finite r ∧ 0 ≤ r ∧ r ≤ 2 * q := by
  unfold nearest
  rw [if_neg (not_lt.mpr h0)]
  have hq := natAbs_num_div_den q
  rw [abs_of_nonneg h0] at hq
  have := nearestMagnitude_bound q.num.natAbs q.den q.den_pos (by rw [hq]; exact h)
  rwa [hq] at this

theorem nearest_error (q : ℚ) (h1 : (2 : ℚ) ^ (-1022 : Int) ≤ |q|) (h2 : |q| < 2 ^ 1023) :
    ∃ r : ℚ, nearest q = finite r ∧ |r - q| ≤ |q| / 2 ^ 53 := by
  have hq := natAbs_num_div_den q
  obtain ⟨r, hr, he⟩ := nearestMagnitude_error q.num.natAbs q.den q.den_pos
    (by rw [hq]; exact h1) (by rw [hq]; exact h2)
  rw [hq] at he
  unfold nearest
  split_ifs with hneg
  · refine ⟨-r, by rw [hr]; rfl, ?_⟩
    rw [abs_of_neg hneg] at he
    rw [abs_of_neg hneg, ← abs_neg]
    simpa [sub_eq_add_neg, add_comm] using he
  · refine ⟨r, hr, ?_⟩
    rw [abs_of_nonneg (not_lt.mp hneg)] at he ⊢
    exact he

theorem nearest_zero : nearest 0 = finite 0 := by decide

/-! ## Theorems: the programs in double arithmetic -/

namespace BankAccount

theorem recordTransaction_keeps_balance (self : BankAccount) (d : String) :
    (self.recordTransaction d).balance = self.balance := rfl

theorem withdraw_ok (self : BankAccount) (amount : Double) :
    (self.withdraw amount).ok =
      (!Double.le amount (finite 0) && !Double.gt amount self.balance) := by
  unfold withdraw
  cases h1 : Double.le amount (finite 0) <;> cases h2 : Double.gt amount self.balance <;> simp

theorem deposit_ok (self : BankAccount) (amount : Double) :
    (self.deposit amount).ok = !Double.le amount (finite 0) := by
  unfold deposit
  cases h1 : Double.le amount (finite 0) <;> simp

/-- C2 as stated fails in double arithmetic: for a NaN amount both guards of
`withdraw` are false, so the call returns `true` although `amount > 0` is false. -/
theorem withdraw_nan_counterexample :
    ¬ (∀ (self : BankAccount) (amount : Double),
        (self.withdraw amount).ok = true ↔
          (Double.gt amount (finite 0) = true ∧ Double.le amount self.getBalance = true)) := by
  intro h
  have h1 := (h mainAccount nan).mp (by decide)
  exact absurd h1.1 (by decide)

/-- C2, amended: for every account whose balance is not NaN and every amount
that is not NaN, `withdraw(amount)` returns `true` if and only if
`amount > 0` and `amount <= balance`. -/
theorem withdraw_succeeds_iff_of_not_nan (self : BankAccount) (amount : Double)
    (ha : amount ≠ nan) (hb : self.getBalance ≠ nan) :
    (self.withdraw amount).ok = true ↔
      (Double.gt amount (finite 0) = true ∧ Double.le amount self.getBalance = true) := by
  rw [withdraw_ok]
  unfold getBalance at hb ⊢
  generalize self.balance = bal at hb
  cases amount <;> cases bal <;>
    simp_all [Double.le, Double.lt, Double.gt, not_le, not_lt]

theorem withdraw_succeeds_iff_of_not_nan_witness :
    (mainAccount.withdraw (finite 200)).ok = true ∧
    (mainAccount.withdraw (finite 2000)).ok ≠ true ∧
    (mainAccount.withdraw posInf).ok ≠ true :=
  ⟨(withdraw_succeeds_iff_of_not_nan mainAccount (finite 200) (by decide) (by decide)).mpr
      ⟨by decide, by decide⟩,
    fun h => absurd
      ((withdraw_succeeds_iff_of_not_nan mainAccount (finite 2000) (by decide) (by decide)).mp h).2
      (by decide),
    fun h => absurd
      ((withdraw_succeeds_iff_of_not_nan mainAccount posInf (by decide) (by decide)).mp h).2
      (by decide)⟩

end BankAccount

theorem le_zero_iff (x : Double) :
    Double.le (finite 0) x = true ↔ x = posInf ∨ ∃ r : ℚ, x = finite r ∧ 0 ≤ r := by
  cases x <;> simp [Double.le]

theorem le_zero_nearest (q : ℚ) (h : 0 ≤ q) : Double.le (finite 0) (nearest q) = true :=
  (le_zero_iff _).mpr (nearest_nonneg q h)

namespace BankAccount

theorem deposit_balance_nonneg (self : BankAccount) (amount : Double)
    (h : Double.le (finite 0) self.balance = true) (ha : amount ≠ nan) :
    Double.le (finite 0) (self.deposit amount).account.balance = true := by
  unfold deposit
  cases h1 : Double.le amount (finite 0)
  · simp only [Bool.false_eq_true, if_false, recordTransaction_keeps_balance]
    rcases (le_zero_iff _).mp h with hb | ⟨p, hb, hp⟩
    · rw [hb]
      cases amount <;> simp_all [Double.le, Double.add]
    · rw [hb]
      cases amount with
      | finite q =>
        have hq : 0 < q := by simpa [Double.le] using h1
        exact le_zero_nearest _ (by linarith)
      | posInf => rfl
      | negInf => simp [Double.le] at h1
      | nan => exact absurd rfl ha
  · simpa using h

theorem withdraw_balance_nonneg (self : BankAccount) (amount : Double)
    (h : Double.le (finite 0) self.balance = true) (ha : amount ≠ nan) (hi : amount ≠ posInf) :
    Double.le (finite 0) (self.withdraw amount).account.balance = true := by
  unfold withdraw
  cases h1 : Double.le amount (finite 0)
  · cases h2 : Double.gt amount self.balance
    · simp only [Bool.false_eq_true, if_false, recordTransaction_keeps_balance]
      cases amount with
      | finite q =>
        rcases (le_zero_iff _).mp h with hb | ⟨p, hb, hp⟩
        · rw [hb]; rfl
        · rw [hb] at h2 ⊢
          have hq : q ≤ p := by simpa [Double.gt, Double.lt] using h2
          exact le_zero_nearest _ (by linarith)
      | posInf => exact absurd rfl hi
      | negInf => simp [Double.le] at h1
      | nan => exact absurd rfl ha
    · simpa using h
  · simpa using h

theorem step_keeps_nonneg (self : BankAccount) (c : Call)
    (h : Double.le (finite 0) self.balance = true)
    (hc : c.amount ≠ nan ∧ c.amount ≠ posInf) :
    Double.le (finite 0) (self.step c).account.balance = true := by
  cases c with
  | deposit amount => exact deposit_balance_nonneg self amount h hc.1
  | withdraw amount => exact withdraw_balance_nonneg self amount h hc.1 hc.2

theorem trace_keeps_nonneg (self : BankAccount) (cs : List Call)
    (h : Double.le (finite 0) self.balance = true)
    (hcs : ∀ c ∈ cs, c.amount ≠ nan ∧ c.amount ≠ posInf) :
    ∀ e ∈ self.trace cs, Double.le (finite 0) e.2.account.balance = true := by
  induction cs generalizing self with
  | nil => simp [trace]
  | cons c cs ih =>
    intro e he
    have hstep := step_keeps_nonneg self c h (hcs c (List.mem_cons_self _ _))
    simp only [trace, List.mem_cons] at he
    rcases he with rfl | he
    · exact hstep
    · exact ih _ hstep (fun c' hc' => hcs c' (List.mem_cons_of_mem _ hc')) e he

theorem final_keeps_nonneg (self : BankAccount) (cs : List Call)
    (h : Double.le (finite 0) self.balance = true)
    (hcs : ∀ c ∈ cs, c.amount ≠ nan ∧ c.amount ≠ posInf) :
    Double.le (finite 0) (self.final cs).balance = true := by
  induction cs generalizing self with
  | nil => simpa [final] using h
  | cons c cs ih =>
    exact ih _ (step_keeps_nonneg self c h (hcs c (List.mem_cons_self _ _)))
      (fun c' hc' => hcs c' (List.mem_cons_of_mem _ hc'))

/-- C12 as stated fails in double arithmetic: from the balance 1000,
`deposit(NaN)` passes the guard `amount <= 0` and leaves the balance NaN,
which is not `>= 0`; so does `deposit(inf)` followed by `withdraw(inf)`. -/
theorem balance_nonneg_counterexample :
    ¬ (∀ (initialBalance : Double) (cs : List Call),
        Double.le (finite 0) initialBalance = true →
        ∀ e ∈ (BankAccount.new "ACC-12345" "Alice Smith" initialBalance).trace cs,
          Double.le (finite 0) e.2.account.getBalance = true) ∧
    (mainAccount.final [Call.deposit nan]).getBalance = nan ∧
    (mainAccount.final [Call.deposit posInf, Call.withdraw posInf]).getBalance = nan := by
  refine ⟨?_, by decide, by decide⟩
  intro h
  have h1 := h (finite 1000) [Call.deposit nan] (by decide)
    (Call.deposit nan, (BankAccount.new "ACC-12345" "Alice Smith" (finite 1000)).step
      (Call.deposit nan)) (by simp [trace])
  revert h1
  decide

/-- C12, amended: for an account constructed with a non-negative initial
balance and any finite sequence of `deposit` / `withdraw` calls whose amounts
are neither NaN nor +infinity (negative, zero and larger-than-balance amounts
included), the balance is non-negative after every call. -/
theorem balance_never_negative_without_nan (accountNumber accountHolder : String)
    (initialBalance : Double) (h : Double.le (finite 0) initialBalance = true)
    (cs : List Call) (hcs : ∀ c ∈ cs, c.amount ≠ nan ∧ c.amount ≠ posInf) :
    (∀ e ∈ (BankAccount.new accountNumber accountHolder initialBalance).trace cs,
      Double.le (finite 0) e.2.account.getBalance = true) ∧
    Double.le (finite 0)
      ((BankAccount.new accountNumber accountHolder initialBalance).final cs).getBalance = true :=
  ⟨trace_keeps_nonneg _ cs h hcs, final_keeps_nonneg _ cs h hcs⟩

theorem balance_never_negative_without_nan_witness :
    Double.le (finite 0) (finite 1000) = true ∧
    (∀ e ∈ mainAccount.trace
        [Call.withdraw (finite 2000), Call.deposit (finite (-5)), Call.withdraw (finite 1000),
          Call.withdraw negInf],
      Double.le (finite 0) e.2.account.getBalance = true) ∧
    Double.le (finite 0) (mainAccount.final
        [Call.withdraw (finite 2000), Call.deposit (finite (-5)), Call.withdraw (finite 1000),
          Call.withdraw negInf]).getBalance = true :=
  ⟨by decide,
    balance_never_negative_without_nan "ACC-12345" "Alice Smith" (finite 1000) (by decide)
      [Call.withdraw (finite 2000), Call.deposit (finite (-5)), Call.withdraw (finite 1000),
        Call.withdraw negInf]
      (by decide)⟩

end BankAccount

theorem divide_zero (self : Calculator) (a : Int) :
    Calculator.divide self a 0 = (finite 0, ["Error: Division by zero\n"]) := by
  simp [Calculator.divide]

theorem divide_nonzero (self : Calculator) (a b : Int) (hb : b ≠ 0) :
    Calculator.divide self a b = (nearest ((a : ℚ) / (b : ℚ)), []) := by
  have hbq : (b : ℚ) ≠ 0 := by exact_mod_cast hb
  simp [Calculator.divide, hb, Double.div, Double.ofInt, hbq]

theorem nearest_one_third :
    nearest (mkRat 1 3) = finite (mkRat 6004799503160661 18014398509481984) := by
  decide

/-- C9 as stated fails in double arithmetic: `divide(1, 3)` returns the
double 6004799503160661 / 2^54, which is not the exact quotient 1/3. -/
theorem divide_exact_counterexample :
    ¬ (∀ a b : Int, -2 ^ 31 ≤ a → a < 2 ^ 31 → -2 ^ 31 ≤ b → b < 2 ^ 31 → b ≠ 0 →
        Calculator.divide {} a b = (finite ((a : ℚ) / (b : ℚ)), [])) ∧
    Calculator.divide {} 1 3 = (finite (6004799503160661 / 18014398509481984), []) := by
  have h13 : Calculator.divide {} 1 3 = (finite (6004799503160661 / 18014398509481984), []) := by
    rw [divide_nonzero {} 1 3 (by decide)]
    have : ((1 : Int) : ℚ) / ((3 : Int) : ℚ) = mkRat 1 3 := by
      rw [Rat.mkRat_eq_div]
      norm_num
    rw [this, nearest_one_third, Rat.mkRat_eq_div]
    norm_num
  refine ⟨?_, h13⟩
  intro h
  have h1 := h 1 3 (by norm_num) (by norm_num) (by norm_num) (by norm_num) (by norm_num)
  rw [h13] at h1
  have h2 := Double.finite.inj (Prod.mk.inj h1).1
  norm_num at h2

/-- C9, amended: for all `int` values `a` and `b`, `divide(a, b)` returns
normally: when `b = 0` it writes `Error: Division by zero` (and a newline) to
the error stream and returns 0; when `b != 0` it writes nothing and returns
the quotient `a / b` rounded to a double, a finite value within relative
error `2^-53` of the exact quotient, and not an integer unless `b` divides
`a` (so not the truncated integer quotient). -/
theorem divide_rounds_quotient (self : Calculator) (a b : Int)
    (ha : -2 ^ 31 ≤ a ∧ a < 2 ^ 31) (hb : -2 ^ 31 ≤ b ∧ b < 2 ^ 31) :
    (b = 0 → Calculator.divide self a b = (finite 0, ["Error: Division by zero\n"])) ∧
    (b ≠ 0 → ∃ r : ℚ, Calculator.divide self a b = (finite r, []) ∧
      |r - (a : ℚ) / (b : ℚ)| ≤ |(a : ℚ) / (b : ℚ)| / 2 ^ 53 ∧
      (¬ b ∣ a → ∀ k : Int, r ≠ (k : ℚ))) := by
  constructor
  · intro h
    rw [h]
    exact divide_zero self a
  · intro hb0
    rw [divide_nonzero self a b hb0]
    have hbq : (b : ℚ) ≠ 0 := by exact_mod_cast hb0
    have hbpos : (0 : ℚ) < |(b : ℚ)| := abs_pos.mpr hbq
    have hble : |(b : ℚ)| ≤ 2 ^ 31 := by
      rw [abs_le]
      constructor
      · have : ((-2 ^ 31 : Int) : ℚ) ≤ (b : ℚ) := by exact_mod_cast hb.1
        simpa using this
      · have : (b : ℚ) ≤ ((2 ^ 31 : Int) : ℚ) := by exact_mod_cast hb.2.le
        simpa using this
    have hale : |(a : ℚ)| ≤ 2 ^ 31 := by
      rw [abs_le]
      constructor
      · have : ((-2 ^ 31 : Int) : ℚ) ≤ (a : ℚ) := by exact_mod_cast ha.1
        simpa using this
      · have : (a : ℚ) ≤ ((2 ^ 31 : Int) : ℚ) := by exact_mod_cast ha.2.le
        simpa using this
    have hb1 : (1 : ℚ) ≤ |(b : ℚ)| := by
      have : (1 : Int) ≤ |b| := Int.one_le_abs hb0
      have h2 : ((1 : Int) : ℚ) ≤ ((|b| : Int) : ℚ) := by exact_mod_cast this
      simpa using h2
    -- the error bound
    have herr : ∃ r : ℚ, nearest ((a : ℚ) / (b : ℚ)) = finite r ∧
        |r - (a : ℚ) / (b : ℚ)| ≤ |(a : ℚ) / (b : ℚ)| / 2 ^ 53 := by
      by_cases ha0 : a = 0
      · refine ⟨0, ?_, ?_⟩
        · rw [ha0]
          simp [nearest_zero]
        · rw [ha0]
          simp
      · have haq : (a : ℚ) ≠ 0 := by exact_mod_cast ha0
        have ha1 : (1 : ℚ) ≤ |(a : ℚ)| := by
          have : (1 : Int) ≤ |a| := Int.one_le_abs ha0
          have h2 : ((1 : Int) : ℚ) ≤ ((|a| : Int) : ℚ) := by exact_mod_cast this
          simpa using h2
        apply nearest_error
        · rw [abs_div]
          have h1 : (2 : ℚ) ^ (-1022 : Int) ≤ (2 : ℚ) ^ (-31 : Int) :=
            zpow_le_zpow_right₀ (by norm_num) (by norm_num)
          have h2 : (2 : ℚ) ^ (-31 : Int) ≤ |(a : ℚ)| / |(b : ℚ)| := by
            rw [le_div_iff₀ hbpos]
            have : (2 : ℚ) ^ (-31 : Int) * |(b : ℚ)| ≤ 2 ^ (-31 : Int) * 2 ^ 31 :=
              mul_le_mul_of_nonneg_left hble (by positivity)
            have h3 : (2 : ℚ) ^ (-31 : Int) * 2 ^ 31 = 1 := by norm_num
            linarith
          exact h1.trans h2
        · rw [abs_div]
          have h1 : |(a : ℚ)| / |(b : ℚ)| ≤ 2 ^ 31 := by
            rw [div_le_iff₀ hbpos]
            have : (2 : ℚ) ^ 31 * 1 ≤ 2 ^ 31 * |(b : ℚ)| :=
              mul_le_mul_of_nonneg_left hb1 (by positivity)
            linarith
          have h2 : (2 : ℚ) ^ 31 < 2 ^ 1023 := pow_lt_pow_right₀ (by norm_num) (by norm_num)
          exact lt_of_le_of_lt h1 h2
    obtain ⟨r, hr, he⟩ := herr
    refine ⟨r, by rw [hr], he, ?_⟩
    intro hdiv k hk
    apply hdiv
    -- `k * b - a` is an integer of absolute value below 1
    have h1 : |(k : ℚ) * b - a| ≤ |(a : ℚ)| / 2 ^ 53 := by
      have e1 : (k : ℚ) * b - a = (r - (a : ℚ) / b) * b := by
        rw [hk]; field_simp
      rw [e1, abs_mul]
      have : |r - (a : ℚ) / b| * |(b : ℚ)| ≤ |(a : ℚ) / b| / 2 ^ 53 * |(b : ℚ)| :=
        mul_le_mul_of_nonneg_right he (abs_nonneg _)
      have e2 : |(a : ℚ) / b| / 2 ^ 53 * |(b : ℚ)| = |(a : ℚ)| / 2 ^ 53 := by
        rw [abs_div]; field_simp
        ring
      linarith
    have h2 : |(a : ℚ)| / 2 ^ 53 < 1 := by
      rw [div_lt_one (by positivity)]
      have : (2 : ℚ) ^ 31 < 2 ^ 53 := pow_lt_pow_right₀ (by norm_num) (by norm_num)
      linarith
    have h3 : |((k * b - a : Int) : ℚ)| < 1 := by
      push_cast
      linarith
    have h4 : |k * b - a| < 1 := by
      have : ((|k * b - a| : Int) : ℚ) < ((1 : Int) : ℚ) := by
        rw [Int.cast_abs]
        simpa using h3
      exact_mod_cast this
    have h5 : k * b - a = 0 := Int.abs_lt_one_iff.mp h4
    exact ⟨k, by linarith⟩

theorem divide_rounds_quotient_witness :
    Calculator.divide {} 20 0 = (finite 0, ["Error: Division by zero\n"]) ∧
    (∃ r : ℚ, Calculator.divide {} 1 3 = (finite r, []) ∧
      |r - ((1 : Int) : ℚ) / ((3 : Int) : ℚ)| ≤ |((1 : Int) : ℚ) / ((3 : Int) : ℚ)| / 2 ^ 53 ∧
      (¬ (3 : Int) ∣ 1 → ∀ k : Int, r ≠ (k : ℚ))) :=
  ⟨(divide_rounds_quotient {} 20 0 (by decide) (by decide)).1 rfl,
    (divide_rounds_quotient {} 1 3 (by decide) (by decide)).2 (by decide)⟩

/-- Rounding a value between 0 and `2 ^ k` (with `k < 1022`) gives a finite
non-negative double of at most `2 ^ (k + 1)`. -/
theorem nearest_le_pow (q : ℚ) (k : Nat) (h0 : 0 ≤ q) (hq : q ≤ 2 ^ k) (hk : k < 1023) :
    ∃ r : ℚ, nearest q = finite r ∧ 0 ≤ r ∧ r ≤ 2 ^ (k + 1) := by
  have h2 : (2 : ℚ) ^ k < 2 ^ 1023 := pow_lt_pow_right₀ (by norm_num) hk
  obtain ⟨r, hr, hr0, hr2⟩ := nearest_bound q h0 (lt_of_le_of_lt hq h2)
  refine ⟨r, hr, hr0, ?_⟩
  rw [pow_succ]
  linarith

namespace Triangle

theorem radicand_nonneg_of_semiPerimeter (name : String) (a b c : ℚ)
    (ha : 0 < a) (hb : 0 < b) (hc : 0 < c)
    (hamax : a ≤ 2 ^ 200) (hbmax : b ≤ 2 ^ 200) (hcmax : c ≤ 2 ^ 200)
    (hs : Double.le (finite a) (Triangle.new name (finite a) (finite b) (finite c)).semiPerimeter
        = true ∧
      Double.le (finite b) (Triangle.new name (finite a) (finite b) (finite c)).semiPerimeter
        = true ∧
      Double.le (finite c) (Triangle.new name (finite a) (finite b) (finite c)).semiPerimeter
        = true) :
    ∃ r : ℚ, (Triangle.new name (finite a) (finite b) (finite c)).radicand = finite r ∧
      0 ≤ r := by
  have p201 : (2 : ℚ) ^ 201 = 2 * 2 ^ 200 := by rw [pow_succ]; ring
  have p202 : (2 : ℚ) ^ 202 = 2 * 2 ^ 201 := by rw [pow_succ]; ring
  have p203 : (2 : ℚ) ^ 203 = 2 * 2 ^ 202 := by rw [pow_succ]; ring
  have p204 : (2 : ℚ) ^ 204 = 2 * 2 ^ 203 := by rw [pow_succ]; ring
  have h200 : (0 : ℚ) < 2 ^ 200 := by positivity
  -- a + b
  obtain ⟨r1, e1, r1n, r1le⟩ := nearest_le_pow (a + b) 201 (by linarith) (by linarith)
    (by norm_num)
  have r1le' : r1 ≤ 2 ^ 202 := r1le
  -- (a + b) + c
  obtain ⟨r2, e2, r2n, r2le⟩ := nearest_le_pow (r1 + c) 203 (by linarith) (by linarith)
    (by norm_num)
  have r2le' : r2 ≤ 2 ^ 204 := r2le
  -- s = (a + b + c) / 2.0
  obtain ⟨s, e3, sn, sle⟩ := nearest_le_pow (r2 / 2) 203 (div_nonneg r2n (by norm_num))
    (by rw [div_le_iff₀ (by norm_num)]; linarith) (by norm_num)
  have sle' : s ≤ 2 ^ 204 := sle
  have hsemi : (Triangle.new name (finite a) (finite b) (finite c)).semiPerimeter = finite s := by
    simp [semiPerimeter, Triangle.new, Double.add, Double.div, e1, e2, e3]
  rw [hsemi] at hs
  have hsa : a ≤ s := by simpa [Double.le] using hs.1
  have hsb : b ≤ s := by simpa [Double.le] using hs.2.1
  have hsc : c ≤ s := by simpa [Double.le] using hs.2.2
  -- the three differences
  obtain ⟨d1, f1, d1n, d1le⟩ := nearest_le_pow (s + -a) 204 (by linarith) (by linarith)
    (by norm_num)
  obtain ⟨d2, f2, d2n, d2le⟩ := nearest_le_pow (s + -b) 204 (by linarith) (by linarith)
    (by norm_num)
  obtain ⟨d3, f3, d3n, d3le⟩ := nearest_le_pow (s + -c) 204 (by linarith) (by linarith)
    (by norm_num)
  have d1le' : d1 ≤ 2 ^ 205 := d1le
  have d2le' : d2 ≤ 2 ^ 205 := d2le
  have d3le' : d3 ≤ 2 ^ 205 := d3le
  have h204 : (0 : ℚ) ≤ 2 ^ 204 := by positivity
  have h410 : (0 : ℚ) ≤ 2 ^ 410 := by positivity
  have h616 : (0 : ℚ) ≤ 2 ^ 616 := by positivity
  -- the three products
  obtain ⟨p1, g1, p1n, p1le⟩ := nearest_le_pow (s * d1) 409 (mul_nonneg sn d1n)
    (by
      have := mul_le_mul sle' d1le' d1n h204
      rwa [← pow_add] at this) (by norm_num)
  have p1le' : p1 ≤ 2 ^ 410 := p1le
  obtain ⟨p2, g2, p2n, p2le⟩ := nearest_le_pow (p1 * d2) 615 (mul_nonneg p1n d2n)
    (by
      have := mul_le_mul p1le' d2le' d2n h410
      rwa [← pow_add] at this) (by norm_num)
  have p2le' : p2 ≤ 2 ^ 616 := p2le
  obtain ⟨p3, g3, p3n, -⟩ := nearest_le_pow (p2 * d3) 821 (mul_nonneg p2n d3n)
    (by
      have := mul_le_mul p2le' d3le' d3n h616
      rwa [← pow_add] at this) (by norm_num)
  refine ⟨p3, ?_, p3n⟩
  simp only [radicand, hsemi]
  simp [Triangle.new, Double.sub, Double.neg, Double.add, Double.mul, f1, f2, f3, g1, g2, g3]

end Triangle

theorem nearest_small_integers :
    nearest 1 = finite 1 ∧ nearest 2 = finite 2 ∧ nearest 3 = finite 3 ∧
    nearest 5 = finite 5 ∧ nearest 6 = finite 6 ∧ nearest 7 = finite 7 ∧
    nearest 12 = finite 12 ∧ nearest 18 = finite 18 ∧ nearest 36 = finite 36 := by
  decide

theorem nearest_halves :
    nearest (5 / 2) = finite (5 / 2) ∧ nearest (3 / 2) = finite (3 / 2) ∧
    nearest (-(1 / 2)) = finite (-(1 / 2)) ∧ nearest (15 / 4) = finite (15 / 4) ∧
    nearest (45 / 8) = finite (45 / 8) ∧ nearest (-(45 / 16)) = finite (-(45 / 16)) := by
  have e1 : (5 / 2 : ℚ) = mkRat 5 2 := by norm_num [Rat.mkRat_eq_div]
  have e2 : (3 / 2 : ℚ) = mkRat 3 2 := by norm_num [Rat.mkRat_eq_div]
  have e3 : (-(1 / 2) : ℚ) = mkRat (-1) 2 := by norm_num [Rat.mkRat_eq_div]
  have e4 : (15 / 4 : ℚ) = mkRat 15 4 := by norm_num [Rat.mkRat_eq_div]
  have e5 : (45 / 8 : ℚ) = mkRat 45 8 := by norm_num [Rat.mkRat_eq_div]
  have e6 : (-(45 / 16) : ℚ) = mkRat (-45) 16 := by norm_num [Rat.mkRat_eq_div]
  rw [e1, e2, e3, e4, e5, e6]
  decide

set_option maxRecDepth 8000 in
theorem nearest_large :
    nearest 9007199254740997 = finite 9007199254740996 ∧
    nearest 9007199254741001 = finite 9007199254741000 ∧
    nearest 4503599627370500 = finite 4503599627370500 ∧
    nearest (-1) = finite (-1) ∧
    nearest 4 = finite 4 ∧
    nearest 4503599627370495 = finite 4503599627370495 ∧
    nearest (-4503599627370500) = finite (-4503599627370500) ∧
    nearest (-18014398509482000) = finite (-18014398509482000) ∧
    nearest (-81129638414606735738984533590000) =
      finite (-81129638414606735738984533590016) := by
  refine ⟨?_, ?_, ?_, ?_, ?_, ?_, ?_, ?_, ?_⟩ <;> decide

namespace Triangle

theorem radicand_3_4_5 (name : String) :
    (Triangle.new name (finite 3) (finite 4) (finite 5)).semiPerimeter = finite 6 ∧
    (Triangle.new name (finite 3) (finite 4) (finite 5)).radicand = finite 36 ∧
    (Triangle.new name (finite 3) (finite 4) (finite 5)).getPerimeter = finite 12 := by
  obtain ⟨n1, n2, n3, n5, n6, n7, n12, n18, n36⟩ := nearest_small_integers
  refine ⟨?_, ?_, ?_⟩ <;>
    norm_num [radicand, semiPerimeter, getPerimeter, Triangle.new, Double.add, Double.sub,
      Double.neg, Double.div, Double.mul, n1, n2, n3, n5, n6, n7, n12, n18, n36]

theorem radicand_1_1_3 (name : String) :
    (Triangle.new name (finite 1) (finite 1) (finite 3)).radicand = finite (-45 / 16) := by
  obtain ⟨n1, n2, n3, n5, n6, n7, n12, n18, n36⟩ := nearest_small_integers
  obtain ⟨m1, m2, m3, m4, m5, m6⟩ := nearest_halves
  norm_num [radicand, semiPerimeter, getPerimeter, Triangle.new, Double.add, Double.sub,
      Double.neg, Double.div, Double.mul, n1, n2, n3, n5, m1, m2, m3, m4, m5, m6]

theorem radicand_rounding (name : String) :
    (Triangle.new name (finite (2 ^ 52 + 5)) (finite (2 ^ 52)) (finite 5)).semiPerimeter =
      finite (2 ^ 52 + 4) ∧
    (Triangle.new name (finite (2 ^ 52 + 5)) (finite (2 ^ 52)) (finite 5)).radicand =
      finite (-81129638414606735738984533590016) := by
  obtain ⟨k1, k2, k3, k4, k5, k6, k7, k8, k9⟩ := nearest_large
  refine ⟨?_, ?_⟩ <;>
    norm_num [radicand, semiPerimeter, getPerimeter, Triangle.new, Double.add, Double.sub,
      Double.neg, Double.div, Double.mul, k1, k2, k3, k4, k5, k6, k7, k8, k9]

end Triangle

namespace Triangle

set_option maxRecDepth 20000 in
theorem nearest_huge :
    nearest (2 ^ 601) = finite (2 ^ 601) ∧
    nearest (2 ^ 602) = finite (2 ^ 602) ∧
    nearest (2 ^ 600) = finite (2 ^ 600) ∧
    nearest (2 ^ 1201) = posInf := by
  refine ⟨?_, ?_, ?_, ?_⟩ <;> decide

theorem radicand_overflow (name : String) :
    (Triangle.new name (finite (2 ^ 600)) (finite (2 ^ 600)) (finite (2 ^ 601))).semiPerimeter =
      finite (2 ^ 601) ∧
    (Triangle.new name (finite (2 ^ 600)) (finite (2 ^ 600)) (finite (2 ^ 601))).radicand =
      nan := by
  obtain ⟨k1, k2, k3, k4⟩ := nearest_huge
  have e1 : (2 : ℚ) ^ 600 + 2 ^ 600 = 2 ^ 601 := by rw [pow_succ]; ring
  have e2 : (2 : ℚ) ^ 601 + 2 ^ 601 = 2 ^ 602 := by rw [pow_succ]; ring
  have e3 : (2 : ℚ) ^ 602 / 2 = 2 ^ 601 := by rw [pow_succ]; ring
  have e4 : (2 : ℚ) ^ 601 + -2 ^ 600 = 2 ^ 600 := by rw [pow_succ]; ring
  have e5 : (2 : ℚ) ^ 601 + -2 ^ 601 = 0 := by ring
  have e6 : (2 : ℚ) ^ 601 * 2 ^ 600 = 2 ^ 1201 := by rw [← pow_add]
  have hs : (Triangle.new name (finite (2 ^ 600)) (finite (2 ^ 600))
      (finite (2 ^ 601))).semiPerimeter = finite (2 ^ 601) := by
    simp only [Triangle.semiPerimeter, Triangle.new, Double.add, Double.div, e1, e2, k1, k2]
    rw [if_neg (by norm_num), e3, k1]
  refine ⟨hs, ?_⟩
  simp only [Triangle.radicand, hs]
  simp only [Triangle.new, Double.sub, Double.neg, Double.add, Double.mul, e4, e5, e6, k3, k4,
    nearest_zero, Double.infTimes]
  simp

/-- C15 as stated fails in double arithmetic: the sides 2^52 + 5, 2^52 and 5
are positive and satisfy `a <= b + c` (with equality), but `a + b + c` is
rounded, the computed `s` is 2^52 + 4, below `a`, and the quantity handed to
the square root is negative. For the sides 2^600, 2^600 and 2^601 (again
positive, with `c = a + b`) the product `s * (s - a)` overflows to infinity
and, `s - c` being 0, the quantity is NaN. -/
theorem heron_radicand_counterexample :
    ¬ (∀ a b c : ℚ, 0 < a → 0 < b → 0 < c → a ≤ b + c → b ≤ a + c → c ≤ a + b →
        Double.le (finite 0)
          (Triangle.new "My Triangle" (finite a) (finite b) (finite c)).radicand = true) ∧
    (Triangle.new "My Triangle" (finite (2 ^ 52 + 5)) (finite (2 ^ 52)) (finite 5)).semiPerimeter
      = finite (2 ^ 52 + 4) ∧
    (Triangle.new "My Triangle" (finite (2 ^ 52 + 5)) (finite (2 ^ 52)) (finite 5)).radicand
      = finite (-81129638414606735738984533590016) ∧
    (Triangle.new "My Triangle" (finite (2 ^ 600)) (finite (2 ^ 600)) (finite (2 ^ 601))).radicand
      = nan := by
  obtain ⟨hs, hr⟩ := radicand_rounding "My Triangle"
  refine ⟨?_, hs, hr, (radicand_overflow "My Triangle").2⟩
  intro h
  have h1 := h (2 ^ 52 + 5) (2 ^ 52) 5 (by norm_num) (by norm_num) (by norm_num)
    (by norm_num) (by norm_num) (by norm_num)
  rw [hr] at h1
  revert h1
  decide

/-- C15, amended: for every Triangle whose side lengths are positive (and at
most 2^200) and whose semi-perimeter `s`, as `getArea` computes it in double
arithmetic, is not smaller than any side, the quantity
`s*(s-a)*(s-b)*(s-c)` handed to the square root is finite and non-negative;
this is the case under the triangle inequality whenever `s` is computed
without rounding error. For sides 3, 4, 5 the quantity is 36, the square of 6
(area 6), and the perimeter is 12; for the positive sides 1, 1, 3, which
violate the triangle inequality, the constructor still builds the object and
the quantity is negative. -/
theorem heron_radicand_nonneg (name : String) (a b c : ℚ)
    (ha : 0 < a) (hb : 0 < b) (hc : 0 < c)
    (hamax : a ≤ 2 ^ 200) (hbmax : b ≤ 2 ^ 200) (hcmax : c ≤ 2 ^ 200)
    (sqrt : Double → Double) :
    ((Double.le (finite a) (Triangle.new name (finite a) (finite b) (finite c)).semiPerimeter
          = true ∧
        Double.le (finite b) (Triangle.new name (finite a) (finite b) (finite c)).semiPerimeter
          = true ∧
        Double.le (finite c) (Triangle.new name (finite a) (finite b) (finite c)).semiPerimeter
          = true) →
      ∃ r : ℚ, (Triangle.new name (finite a) (finite b) (finite c)).radicand = finite r ∧
        0 ≤ r) ∧
    ((Triangle.new name (finite a) (finite b) (finite c)).semiPerimeter
        = finite ((a + b + c) / 2) →
      a ≤ b + c → b ≤ a + c → c ≤ a + b →
      ∃ r : ℚ, (Triangle.new name (finite a) (finite b) (finite c)).radicand = finite r ∧
        0 ≤ r) ∧
    (Triangle.new name (finite a) (finite b) (finite c)).getArea sqrt =
      sqrt (Triangle.new name (finite a) (finite b) (finite c)).radicand ∧
    (Triangle.new name (finite 3) (finite 4) (finite 5)).radicand = finite 36 ∧
    (0 : ℚ) ≤ 6 ∧ (6 : ℚ) * 6 = 36 ∧
    (Triangle.new name (finite 3) (finite 4) (finite 5)).getArea sqrt = sqrt (finite 36) ∧
    (Triangle.new name (finite 3) (finite 4) (finite 5)).getPerimeter = finite 12 ∧
    Triangle.new name (finite 1) (finite 1) (finite 3) =
      { name := name, a := finite 1, b := finite 1, c := finite 3 } ∧
    (Triangle.new name (finite 1) (finite 1) (finite 3)).radicand = finite (-45 / 16) ∧
    Double.lt (Triangle.new name (finite 1) (finite 1) (finite 3)).radicand (finite 0) = true := by
  obtain ⟨-, h345, hper⟩ := radicand_3_4_5 name
  have h113 := radicand_1_1_3 name
  refine ⟨radicand_nonneg_of_semiPerimeter name a b c ha hb hc hamax hbmax hcmax, ?_, rfl,
    h345, by norm_num, by norm_num, ?_, hper, rfl, h113, ?_⟩
  · intro hexact h1 h2 h3
    apply radicand_nonneg_of_semiPerimeter name a b c ha hb hc hamax hbmax hcmax
    rw [hexact]
    simp only [Double.le, decide_eq_true_eq]
    refine ⟨by linarith, by linarith, by linarith⟩
  · simp only [getArea, h345]
  · rw [h113]
    simp only [Double.lt, decide_eq_true_eq]
    norm_num

theorem heron_radicand_nonneg_witness :
    (∃ r : ℚ, (Triangle.new "My Triangle" (finite 3) (finite 4) (finite 5)).radicand = finite r ∧
      0 ≤ r) ∧
    (Triangle.new "My Triangle" (finite 3) (finite 4) (finite 5)).radicand = finite 36 ∧
    (Triangle.new "My Triangle" (finite 3) (finite 4) (finite 5)).getPerimeter = finite 12 ∧
    Double.lt (Triangle.new "My Triangle" (finite 1) (finite 1) (finite 3)).radicand (finite 0)
      = true :=
  have h := heron_radicand_nonneg "My Triangle" 3 4 5 (by norm_num) (by norm_num) (by norm_num)
    (by norm_num) (by norm_num) (by norm_num) id
  have hs := (radicand_3_4_5 "My Triangle").1
  ⟨h.1 (by rw [hs]; decide), h.2.2.2.1, h.2.2.2.2.2.2.2.1, h.2.2.2.2.2.2.2.2.2.2⟩

end Triangle

end Binary64

end OopInCpp
